import Mathlib

/-!
# dl2006: list-query normalisation, pagination metadata and aggregate writes

A shallow embedding of the list handlers (`handlers/dashboard`, `handlers/panel`),
the card and invitation services (`services`) and the card and invitation repositories
(`repositories`), for the list path and for the create, update and delete of a card or an
invitation together with its child rows.

Go `int`/`int64` values are `Int`; the one place where the program multiplies
(`(params.Page - 1) * params.PerPage`) is wrapped to 64 bits explicitly.
Go `uint` identifiers are `Nat`; no arithmetic is performed on them.
A Go `error` is `Option String` (`none` is `nil`).
-/

namespace DL2006

/-! ## pkg/queryparams -/

namespace queryparams

/-- ListParams of `pkg/queryparams`, with the four fields the sources read and write:
`Page`, `PerPage`, `SortBy`, `OrderBy`. A composite literal that omits a field leaves it
at Go's zero value (`0`, `""`). -/
structure ListParams where
  Page : Int
  PerPage : Int
  SortBy : String
  OrderBy : String
deriving DecidableEq, Repr

/-- The constants `DefaultPerPage`, `MaxPerPage`, `DefaultSortBy`, `DefaultOrderBy` of
`pkg/queryparams`. The package is not among the sources and the specification gives no
value for them, so they are parameters of every definition that reads them. -/
structure Consts where
  DefaultPerPage : Int
  MaxPerPage : Int
  DefaultSortBy : String
  DefaultOrderBy : String
deriving DecidableEq, Repr

/-- The constants are usable defaults: the default page size lies in `[1, MaxPerPage]` and
the default sort column and direction are non-empty strings. -/
def Consts.Valid (k : Consts) : Prop :=
  1 ≤ k.DefaultPerPage ∧ k.DefaultPerPage ≤ k.MaxPerPage ∧
    k.DefaultSortBy ≠ "" ∧ k.DefaultOrderBy ≠ ""

instance (k : Consts) : Decidable k.Valid := by
  unfold Consts.Valid; infer_instance

/-- Modelled from the spec: the constant `DefaultPage` of `pkg/queryparams`, which is not
among the sources. The data model gives `page` as a "positive integer, default 1". -/
def DefaultPage : Int := 1

/-- Modelled from the spec: the helper `DefaultListParams()` of `pkg/queryparams`, which is
not among the sources. The specification calls its value "the complete default parameter
set": every field carries its default. -/
def DefaultListParams (k : Consts) : ListParams :=
  { Page := DefaultPage
    PerPage := k.DefaultPerPage
    SortBy := k.DefaultSortBy
    OrderBy := k.DefaultOrderBy }

/-- The resolution invariant of the specification for a `ListParams` value:
`page ≥ 1`, `1 ≤ perPage ≤ MaxPerPage`, `sortBy` and `orderBy` non-empty. -/
def FullyResolved (maxPerPage : Int) (p : ListParams) : Prop :=
  1 ≤ p.Page ∧ 1 ≤ p.PerPage ∧ p.PerPage ≤ maxPerPage ∧ p.SortBy ≠ "" ∧ p.OrderBy ≠ ""

instance (m : Int) (p : ListParams) : Decidable (FullyResolved m p) := by
  unfold FullyResolved; infer_instance

/-- Modelled from the spec: the "ascending/descending enumeration" of sort directions that
the data model gives for `orderBy`; no declaration of it is among the sources. These are
the SQL direction keywords, in lower and in upper case. -/
def sortDirections : List String := ["asc", "desc", "ASC", "DESC"]

/-- PaginationMeta of `pkg/queryparams`: the four fields the sources set. A composite
literal that omits `TotalItems` or `TotalPages` leaves them at `0`. -/
structure PaginationMeta where
  CurrentPage : Int
  PerPage : Int
  TotalItems : Int
  TotalPages : Int
deriving DecidableEq, Repr

/-- PaginatedResult of `pkg/queryparams`: the page of rows and its metadata. -/
structure PaginatedResult (α : Type) where
  Data : List α
  Meta : PaginationMeta
deriving Repr

/-- Modelled from the spec: the function `CalculateTotalPages(totalItems, perPage)` of
`pkg/queryparams`, which is not among the sources. The specification gives it as the pure
function returning the ceiling of `totalItems / perPage` for `perPage > 0`, with value `0`
when `totalItems` is `0`; it is computed here in integer arithmetic (`/` rounds down for a
positive divisor). For `perPage ≤ 0`, outside the stated precondition, the value is `0`. -/
def CalculateTotalPages (totalItems perPage : Int) : Int :=
  if perPage ≤ 0 then 0 else (totalItems + perPage - 1) / perPage

end queryparams

open queryparams

/-! ## models -/

namespace models

/-- Card of `models`, with the columns the sources name in `CardService.UpdateCard` and
the primary key. -/
structure Card where
  ID : Nat
  UserID : Nat
  Name : String
  Slug : String
deriving DecidableEq, Repr

end models

open models

/-! ## The storage engine behind `*gorm.DB` -/

/-- Wrap an integer to the range of a 64-bit Go `int`. -/
def wrapInt (x : Int) : Int := (x + 2 ^ 63) % 2 ^ 64 - 2 ^ 63

/-- The statement accumulated on the `*gorm.DB` chain in
`CardRepository.GetAllCardsByUserID`: the `user_id = ?` argument, the `Limit` and `Offset`
arguments and the string given to `Order`. -/
structure Query where
  userID : Nat
  limit : Int
  offset : Int
  order : String
deriving DecidableEq, Repr

/-- The parts of the storage engine and of the query builder that lie outside the
repository. `orderRows clause rows` is the engine's evaluation of `ORDER BY clause` on the
selected rows, `none` when it rejects the statement. `limitZeroKeepsAll` records how the
query builder treats `Limit(0)`: as no `LIMIT` clause or as `LIMIT 0`. -/
structure Engine where
  orderRows : String → List Card → Option (List Card)
  limitZeroKeepsAll : Bool

/-- An engine's `ORDER BY` only rearranges the rows it is given. -/
def Engine.Sound (e : Engine) : Prop :=
  ∀ clause rows sorted, e.orderRows clause rows = some sorted → sorted.Perm rows

/-- The rows selected by `WHERE user_id = ?`. -/
def ownedBy (userID : Nat) (table : List Card) : List Card :=
  table.filter (fun c => c.UserID = userID)

/-- The query builder's `Offset(n)`: an `OFFSET` clause only for `n > 0`. -/
def applyOffset (offset : Int) (rows : List Card) : List Card :=
  if offset > 0 then rows.drop offset.toNat else rows

/-- The query builder's `Limit(n)`: `LIMIT n` for `n > 0`, no clause for `n < 0`, and for
`n = 0` whichever the engine record says. -/
def applyLimit (e : Engine) (limit : Int) (rows : List Card) : List Card :=
  if limit > 0 then rows.take limit.toNat
  else if limit = 0 ∧ e.limitZeroKeepsAll = false then []
  else rows

/-- Run `Find(&cards)` for a statement: filter, order, skip `offset`, keep `limit`. When
the engine rejects the statement the slice stays empty and the error is set. -/
def Engine.find (e : Engine) (table : List Card) (q : Query) : List Card × Option String :=
  match e.orderRows q.order (ownedBy q.userID table) with
  | none => ([], some "query failed")
  | some rows => (applyLimit e q.limit (applyOffset q.offset rows), none)

/-- An engine that accepts every `ORDER BY` and leaves the rows in table order. -/
def sampleEngine : Engine :=
  { orderRows := fun _ rows => some rows, limitZeroKeepsAll := false }

/-! ## repositories/card_repository.go -/

namespace CardRepository

/-- The sort-column whitelist that `NewCardRepository` installs on the base repository
with `SetAllowedSortColumns`. -/
def allowedSortColumns : List String := ["id", "name", "slug", "created_at"]

/-- The statement that `GetAllCardsByUserID` builds (card_repository.go 83-87):
`Where("user_id = ?", userID)`, `Limit(params.PerPage)`,
`Offset((params.Page - 1) * params.PerPage)` in 64-bit arithmetic and
`Order(params.SortBy + " " + params.OrderBy)`. -/
def GetAllCardsByUserID_query (userID : Nat) (params : ListParams) : Query :=
  { userID := userID
    limit := params.PerPage
    offset := wrapInt (wrapInt (params.Page - 1) * params.PerPage)
    order := params.SortBy ++ " " ++ params.OrderBy }

/-- `CardRepository.GetAllCardsByUserID`: the cards found, the count of the user's rows
(taken before `Limit`/`Offset` are applied) and the error. -/
def GetAllCardsByUserID (e : Engine) (table : List Card) (userID : Nat)
    (params : ListParams) : List Card × Int × Option String :=
  let totalCount : Int := (ownedBy userID table).length
  let found := e.find table (GetAllCardsByUserID_query userID params)
  (found.1, totalCount, found.2)

end CardRepository

/-! ## services -/

namespace CardService

/-- `CardService.GetAllCards` (card_service.go 33-50). `repoResult` is what
`s.repo.GetAllCards(params)` returned; the value is the pair (result pointer, error). -/
def GetAllCards (repoResult : List Card × Int × Option String) (params : ListParams) :
    Option (PaginatedResult Card) × Option String :=
  match repoResult with
  | (_, _, some _) => (none, some "Kartlar getirilirken bir hata oluştu")
  | (cards, totalCount, none) =>
    (some
      { Data := cards
        Meta :=
          { CurrentPage := params.Page
            PerPage := params.PerPage
            TotalItems := totalCount
            TotalPages := CalculateTotalPages totalCount params.PerPage } },
      none)

/-- The `params` literal that `CardService.GetCardsByUserID` builds
(card_service.go 121-124): `Page: 1, PerPage: 1`, the strings left at `""`. -/
def GetCardsByUserID_params : ListParams :=
  { Page := 1, PerPage := 1, SortBy := "", OrderBy := "" }

/-- `CardService.GetCardsByUserID` (card_service.go 120-127). -/
def GetCardsByUserID (e : Engine) (table : List Card) (userID : Nat) :
    List Card × Int × Option String :=
  CardRepository.GetAllCardsByUserID e table userID GetCardsByUserID_params

end CardService

namespace InvitationService

/-- `InvitationService.GetAllInvitations` (invitation_service.go 35-51), for any row
type `α` standing for `models.Invitation`. `repoResult` is what
`s.repo.GetAllInvitations(params)` returned. -/
def GetAllInvitations {α : Type} (repoResult : List α × Int × Option String)
    (params : ListParams) : Option (PaginatedResult α) × Option String :=
  match repoResult with
  | (_, _, some _) => (none, some "Davetiyeler getirilirken bir hata oluştu")
  | (invitations, totalCount, none) =>
    (some
      { Data := invitations
        Meta :=
          { CurrentPage := params.Page
            PerPage := params.PerPage
            TotalItems := totalCount
            TotalPages := CalculateTotalPages totalCount params.PerPage } },
      none)

end InvitationService

/-! ## handlers/dashboard: the list handlers up to the service call -/

namespace handlers

/-- The statements between the declaration of `params` and the service call, which are
the same text in `ListCards` (dashboard_card_handler.go 34-51), `ListBanks`,
`ListInvitations`, `ListCategories` and `ListSocialMedias`.

`parsed` is the content of `params` after `c.QueryParser(&params)` returned (on failure,
whatever the parser had filled in before it stopped) and `parseErr` tells whether it
returned an error. The value is the `params` handed to the service. -/
def normalizeQuery (k : Consts) (parsed : ListParams) (parseErr : Bool) : ListParams :=
  let params := if parseErr then DefaultListParams k else parsed
  let params := if params.Page ≤ 0 then { params with Page := DefaultPage } else params
  let params :=
    if params.PerPage ≤ 0 ∨ params.PerPage > k.MaxPerPage then
      { params with PerPage := k.DefaultPerPage }
    else params
  let params := if params.SortBy = "" then { params with SortBy := k.DefaultSortBy } else params
  let params :=
    if params.OrderBy = "" then { params with OrderBy := k.DefaultOrderBy } else params
  params

/-- The `params` that `DashboardCardHandler.ListCards` passes to
`cardService.GetAllCards`. -/
def ListCards_params (k : Consts) (parsed : ListParams) (parseErr : Bool) : ListParams :=
  normalizeQuery k parsed parseErr

/-- The `params` that `DashboardBankHandler.ListBanks` passes to
`bankService.GetAllBanks`. -/
def ListBanks_params (k : Consts) (parsed : ListParams) (parseErr : Bool) : ListParams :=
  normalizeQuery k parsed parseErr

/-- The `params` that `DashboardInvitationHandler.ListInvitations` passes to
`invitationService.GetAllInvitations`. -/
def ListInvitations_params (k : Consts) (parsed : ListParams) (parseErr : Bool) :
    ListParams :=
  normalizeQuery k parsed parseErr

/-- The `params` that `DashboardInvitationCategoryHandler.ListCategories` passes to
`categoryService.GetAllCategories`. -/
def ListCategories_params (k : Consts) (parsed : ListParams) (parseErr : Bool) :
    ListParams :=
  normalizeQuery k parsed parseErr

/-- The `params` that `DashboardSocialMediaHandler.ListSocialMedias` passes to
`socialMediaService.GetAllSocialMedias`. -/
def ListSocialMedias_params (k : Consts) (parsed : ListParams) (parseErr : Bool) :
    ListParams :=
  normalizeQuery k parsed parseErr

/-- The literal `queryparams.ListParams{PerPage: 1000}` that the form handlers pass to
`GetAllUsers`, `GetAllBanks`, `GetAllSocialMedias` and `GetAllCategories`:
`ShowCreateCard` and `ShowUpdateCard` (dashboard and panel), `ShowCreateInvitation` and
`ShowUpdateInvitation`. The omitted fields are Go zero values. -/
def ShowCreate_params : ListParams :=
  { Page := 0, PerPage := 1000, SortBy := "", OrderBy := "" }

/-- What `PanelCardHandler.ListCards` hands to the renderer: the `Result` and `Params`
entries of the render data and the flash error, if any. -/
structure PanelListView where
  Result : PaginatedResult Card
  Params : ListParams
  flashError : Option String
deriving Repr

/-- `PanelCardHandler.ListCards` (panel_card_handler.go 33-64). `svcResult` is what
`h.cardService.GetCardsByUserID(userID)` returned. -/
def PanelCardHandler.ListCards (svcResult : List Card × Int × Option String) :
    PanelListView :=
  let params : ListParams := { Page := 1, PerPage := 1, SortBy := "", OrderBy := "" }
  let paginatedResult : PaginatedResult Card :=
    { Data := svcResult.1
      Meta := { CurrentPage := 1, PerPage := 1, TotalItems := svcResult.2.1, TotalPages := 1 } }
  match svcResult.2.2 with
  | none => { Result := paginatedResult, Params := params, flashError := none }
  | some _ =>
    { Result :=
        { Data := []
          Meta := { CurrentPage := 1, PerPage := 1, TotalItems := 0, TotalPages := 0 } }
      Params := params
      flashError := some "Kart getirilirken bir hata oluştu." }

/-- The five list handlers, as functions from the parser's outcome to the `params` each
passes to its service. -/
def listHandlers : List (Consts → ListParams → Bool → ListParams) :=
  [ListCards_params, ListBanks_params, ListInvitations_params, ListCategories_params,
    ListSocialMedias_params]

end handlers

/-- A concrete choice of the package constants, used to evaluate the definitions. -/
def sampleConsts : Consts :=
  { DefaultPerPage := 10, MaxPerPage := 100, DefaultSortBy := "id", DefaultOrderBy := "desc" }

/-! ## models: the aggregates of the write path -/

namespace models

/-- CardBank of `models`: the card-to-bank association row, with the fields the handlers
set (`CardID`, `BankID`, `IBAN`). Its own generated key is not tracked. -/
structure CardBank where
  CardID : Nat
  BankID : Nat
  IBAN : String
deriving DecidableEq, Repr

/-- CardSocialMedia of `models`: the card-to-social-media association row, with the fields
the handlers set (`CardID`, `SocialMediaID`, `URL`). -/
structure CardSocialMedia where
  CardID : Nat
  SocialMediaID : Nat
  URL : String
deriving DecidableEq, Repr

/-- The `*models.Card` argument of the write operations: the columns of `Card` kept in the
table model, the further columns that `CardService.UpdateCard` reads, and the two child
slices `CardBanks` and `CardSocialMedia`. -/
structure CardEntity extends Card where
  Photo : String
  Telephone : String
  Email : String
  Location : String
  Website : String
  IsActive : Bool
  CardBanks : List CardBank
  CardSocialMedia : List CardSocialMedia
deriving DecidableEq, Repr

/-- A `Date` or `Time` field of `models.Invitation`: the zero value of its Go type, or a
value read from text. -/
inductive DateTime where
  | zero
  | parsed (text : String)
deriving DecidableEq, Repr

/-- InvitationDetail of `models`: the 1:1 detail row (`InvitationID`, `Title`, `Person`). -/
structure InvitationDetail where
  InvitationID : Nat
  Title : String
  Person : String
deriving DecidableEq, Repr

/-- InvitationParticipant of `models`: an attendee row (`InvitationID`, `Title`,
`PhoneNumber`, `GuestCount`). -/
structure InvitationParticipant where
  InvitationID : Nat
  Title : String
  PhoneNumber : String
  GuestCount : Int
deriving DecidableEq, Repr

/-- The columns of an invitation row kept in the table model. -/
structure InvitationRow where
  ID : Nat
  UserID : Nat
  CategoryID : Nat
  InvitationKey : String
  Title : String
deriving DecidableEq, Repr

/-- The `*models.Invitation` argument of the write operations: the row columns kept in the
table model, the further columns that `InvitationService.UpdateInvitation` reads (`Type_`
is the Go field `Type`), the optional `InvitationDetail` pointer and the `Participants`
slice. -/
structure Invitation extends InvitationRow where
  Template : String
  Type_ : String
  Image : String
  Description : String
  Venue : String
  Address : String
  Location : String
  Link : String
  Telephone : String
  Note : String
  Date : DateTime
  Time : DateTime
  IsConfirmed : Bool
  IsParticipant : Bool
  Participants : List InvitationParticipant
  InvitationDetail : Option InvitationDetail
deriving DecidableEq, Repr

end models

/-! ## The store and the statements issued on it -/

/-- A value of the `map[string]interface{}` patch handed to the repository. -/
inductive Value where
  | str (s : String)
  | uint (n : Nat)
  | bool (b : Bool)
  | time (t : DateTime)
deriving DecidableEq, Repr

/-- The `map[string]interface{}` patch of an update: column name and new value. -/
abbrev Patch := List (String × Value)

/-- The text column `key` after a patch: the patched value if the patch names it. -/
def Patch.strOr (data : Patch) (key : String) (old : String) : String :=
  match data.lookup key with
  | some (Value.str s) => s
  | _ => old

/-- The unsigned column `key` after a patch: the patched value if the patch names it. -/
def Patch.uintOr (data : Patch) (key : String) (old : Nat) : Nat :=
  match data.lookup key with
  | some (Value.uint n) => n
  | _ => old

/-- The tables the write operations touch, each as the list of its rows in insertion order,
and the next value of the auto-increment key. -/
structure Store where
  cards : List Card
  cardBanks : List CardBank
  cardSocialMedia : List CardSocialMedia
  invitations : List InvitationRow
  invitationDetails : List InvitationDetail
  invitationParticipants : List InvitationParticipant
  nextID : Nat
deriving DecidableEq, Repr

/-- A write statement sent to the storage engine. The `delete…Where` statements are
`Where("card_id = ?", id).Delete(…)` and `Where("invitation_id = ?", id).Delete(…)`. -/
inductive Stmt where
  | createCard (row : Card)
  | updateCard (id : Nat) (data : Patch) (updatedBy : Nat)
  | deleteCard (id : Nat)
  | createCardBank (row : CardBank)
  | deleteCardBanksWhere (cardID : Nat)
  | createCardSocialMedia (row : CardSocialMedia)
  | deleteCardSocialMediaWhere (cardID : Nat)
  | createInvitation (row : InvitationRow)
  | updateInvitation (id : Nat) (data : Patch) (updatedBy : Nat)
  | deleteInvitation (id : Nat)
  | createInvitationDetail (row : InvitationDetail)
  | deleteInvitationDetailsWhere (invitationID : Nat)
  | createInvitationParticipant (row : InvitationParticipant)
  | deleteInvitationParticipantsWhere (invitationID : Nat)
deriving DecidableEq, Repr

/-- The effect of a statement that the engine carries out. An update changes the columns
the patch names, of the row with the given key; a delete removes the matching rows. -/
def Stmt.apply (st : Stmt) (s : Store) : Store :=
  match st with
  | .createCard row =>
    { s with cards := s.cards ++ [row], nextID := max s.nextID (row.ID + 1) }
  | .updateCard id data _ =>
    { s with
      cards := s.cards.map fun c =>
        if c.ID = id then
          { c with
            Name := data.strOr "name" c.Name
            Slug := data.strOr "slug" c.Slug
            UserID := data.uintOr "user_id" c.UserID }
        else c }
  | .deleteCard id => { s with cards := s.cards.filter fun c => c.ID ≠ id }
  | .createCardBank row => { s with cardBanks := s.cardBanks ++ [row] }
  | .deleteCardBanksWhere cardID =>
    { s with cardBanks := s.cardBanks.filter fun r => r.CardID ≠ cardID }
  | .createCardSocialMedia row => { s with cardSocialMedia := s.cardSocialMedia ++ [row] }
  | .deleteCardSocialMediaWhere cardID =>
    { s with cardSocialMedia := s.cardSocialMedia.filter fun r => r.CardID ≠ cardID }
  | .createInvitation row =>
    { s with invitations := s.invitations ++ [row], nextID := max s.nextID (row.ID + 1) }
  | .updateInvitation id data _ =>
    { s with
      invitations := s.invitations.map fun r =>
        if r.ID = id then
          { r with
            InvitationKey := data.strOr "invitation_key" r.InvitationKey
            Title := data.strOr "title" r.Title
            UserID := data.uintOr "user_id" r.UserID
            CategoryID := data.uintOr "category_id" r.CategoryID }
        else r }
  | .deleteInvitation id => { s with invitations := s.invitations.filter fun r => r.ID ≠ id }
  | .createInvitationDetail row =>
    { s with invitationDetails := s.invitationDetails ++ [row] }
  | .deleteInvitationDetailsWhere invitationID =>
    { s with
      invitationDetails := s.invitationDetails.filter fun r => r.InvitationID ≠ invitationID }
  | .createInvitationParticipant row =>
    { s with invitationParticipants := s.invitationParticipants ++ [row] }
  | .deleteInvitationParticipantsWhere invitationID =>
    { s with
      invitationParticipants :=
        s.invitationParticipants.filter fun r => r.InvitationID ≠ invitationID }

/-- The handle a statement is issued on: the repository's handle, reached with the
caller's `ctx`, or the handle `tx` that `db.Transaction` passes to its callback. -/
inductive Via where
  | repo
  | tx
deriving DecidableEq, Repr

/-- The storage side of a service call. `store` holds the committed rows. `faults n` is
the engine's answer to the `n`-th statement issued during the call (counted from `0`):
`none` when it carries the statement out, `some e` when it fails it with the error `e`.
`log` lists the statements issued so far, in order, with their handle.

The handle stored in `ctx` under `"db"`, or else the process-wide handle of
`databaseconfig.GetDB()`, is a handle outside any transaction (no caller in the sources
stores a transaction there): a statement issued through the repository takes effect on
`store` at once. -/
structure World where
  store : Store
  faults : Nat → Option String
  log : List (Via × Stmt)

/-- Issue one statement on a handle outside a transaction: it is entered in the log and,
unless the engine fails it, carried out on the store. -/
def World.issue (w : World) (st : Stmt) : World × Option String :=
  match w.faults w.log.length with
  | some e => ({ w with log := w.log ++ [(Via.repo, st)] }, some e)
  | none => ({ w with log := w.log ++ [(Via.repo, st)], store := st.apply w.store }, none)

/-- The state inside the callback of `db.Transaction`: the world, and the statements
carried out on `tx` that wait for the commit. -/
structure TxState where
  world : World
  pending : List Stmt

/-- Issue one statement on `tx`: it is entered in the log and, unless the engine fails it,
joins the statements waiting for the commit. -/
def TxState.exec (s : TxState) (st : Stmt) : TxState × Option String :=
  match s.world.faults s.world.log.length with
  | some e => ({ s with world := { s.world with log := s.world.log ++ [(Via.tx, st)] } }, some e)
  | none =>
    ({ world := { s.world with log := s.world.log ++ [(Via.tx, st)] }
       pending := s.pending ++ [st] }, none)

/-- Carry out the waiting statements, in the order they were issued. -/
def commit (pending : List Stmt) (s : Store) : Store :=
  pending.foldl (fun acc st => st.apply acc) s

/-- `db.Transaction(fc)` on a handle outside a transaction: begin, run the callback, and
commit the statements issued on `tx` if the callback returns `nil`, roll them back if it
returns an error, which is then the result. Begin and commit themselves are taken to
succeed. -/
def Transaction (w : World) (fc : TxState → TxState × Option String) : World × Option String :=
  match fc { world := w, pending := [] } with
  | (s, none) => ({ s.world with store := commit s.pending s.world.store }, none)
  | (s, some err) => (s.world, some err)

/-- The loop `for _, row := range rows { if err := tx.Create(&row).Error; err != nil {
return err } }`, over the statements that create the rows. -/
def createEach (s : TxState) : List Stmt → TxState × Option String
  | [] => (s, none)
  | st :: rest =>
    match s.exec st with
    | (s1, some err) => (s1, some err)
    | (s1, none) => createEach s1 rest

/-! ## repositories: the write operations -/

namespace BaseRepository

/-- Modelled from the spec: `BaseRepository[models.Card].Create(ctx, card)`; the base
repository is not among the sources. The specification gives `create` as inserting a new
row and yielding its generated id: a card whose `ID` is `0` gets the next auto-increment
value, and the key is written back into the entity. On failure the entity is unchanged. -/
def CreateCard (w : World) (card : CardEntity) : World × CardEntity × Option String :=
  let id := if card.ID = 0 then w.store.nextID else card.ID
  let created : CardEntity := { card with ID := id }
  match w.issue (Stmt.createCard created.toCard) with
  | (w1, some err) => (w1, card, some err)
  | (w1, none) => (w1, created, none)

/-- Modelled from the spec: `BaseRepository[models.Card].Update(ctx, id, data, updatedBy)`,
not among the sources. The specification gives `update` as applying the sparse patch with
the acting-user stamp and signalling `NotFound` when no row has the id. -/
def UpdateCard (w : World) (id : Nat) (data : Patch) (updatedBy : Nat) : World × Option String :=
  match w.issue (Stmt.updateCard id data updatedBy) with
  | (w1, some err) => (w1, some err)
  | (w1, none) =>
    if w.store.cards.any (fun c => c.ID = id) then (w1, none) else (w1, some "record not found")

/-- Modelled from the spec: `BaseRepository[models.Card].Delete(ctx, id)`, not among the
sources. The specification gives `delete(id)` as deleting the row with the id. -/
def DeleteCard (w : World) (id : Nat) : World × Option String :=
  w.issue (Stmt.deleteCard id)

/-- Modelled from the spec: `BaseRepository[models.Invitation].Create(ctx, invitation)`,
not among the sources; as `CreateCard`, for the invitations table. -/
def CreateInvitation (w : World) (invitation : Invitation) :
    World × Invitation × Option String :=
  let id := if invitation.ID = 0 then w.store.nextID else invitation.ID
  let created : Invitation := { invitation with ID := id }
  match w.issue (Stmt.createInvitation created.toInvitationRow) with
  | (w1, some err) => (w1, invitation, some err)
  | (w1, none) => (w1, created, none)

/-- Modelled from the spec: `BaseRepository[models.Invitation].Update(ctx, id, data,
updatedBy)`, not among the sources; as `UpdateCard`, for the invitations table. -/
def UpdateInvitation (w : World) (id : Nat) (data : Patch) (updatedBy : Nat) :
    World × Option String :=
  match w.issue (Stmt.updateInvitation id data updatedBy) with
  | (w1, some err) => (w1, some err)
  | (w1, none) =>
    if w.store.invitations.any (fun r => r.ID = id) then (w1, none)
    else (w1, some "record not found")

/-- Modelled from the spec: `BaseRepository[models.Invitation].Delete(ctx, id)`, not among
the sources; as `DeleteCard`, for the invitations table. -/
def DeleteInvitation (w : World) (id : Nat) : World × Option String :=
  w.issue (Stmt.deleteInvitation id)

end BaseRepository

namespace CardRepository

/-- `CardRepository.CreateCard` (card_repository.go 53-55): `r.base.Create(ctx, card)`. -/
def CreateCard (w : World) (card : CardEntity) : World × CardEntity × Option String :=
  BaseRepository.CreateCard w card

/-- `CardRepository.UpdateCard` (card_repository.go 61-63):
`r.base.Update(ctx, id, data, updatedBy)`. -/
def UpdateCard (w : World) (id : Nat) (data : Patch) (updatedBy : Nat) : World × Option String :=
  BaseRepository.UpdateCard w id data updatedBy

/-- `CardRepository.DeleteCard` (card_repository.go 69-71): `r.base.Delete(ctx, id)`. -/
def DeleteCard (w : World) (id : Nat) : World × Option String :=
  BaseRepository.DeleteCard w id

end CardRepository

namespace InvitationRepository

/-- `InvitationRepository.CreateInvitation` (invitation_repository.go 50-52). -/
def CreateInvitation (w : World) (invitation : Invitation) :
    World × Invitation × Option String :=
  BaseRepository.CreateInvitation w invitation

/-- `InvitationRepository.UpdateInvitation` (invitation_repository.go 54-56). -/
def UpdateInvitation (w : World) (id : Nat) (data : Patch) (updatedBy : Nat) :
    World × Option String :=
  BaseRepository.UpdateInvitation w id data updatedBy

/-- `InvitationRepository.DeleteInvitation` (invitation_repository.go 58-60). -/
def DeleteInvitation (w : World) (id : Nat) : World × Option String :=
  BaseRepository.DeleteInvitation w id

end InvitationRepository

/-! ## services: the write operations -/

namespace CardService

/-- `CardService.CreateCard` (card_service.go 56-78): inside `db.Transaction`, the parent
insert through `s.repo.CreateCard(ctx, card)`, then `tx.Create(&cb)` for every element of
`card.CardBanks` and `tx.Create(&csm)` for every element of `card.CardSocialMedia`, each
as the caller supplied it, returning at the first error. -/
def CreateCard (w : World) (card : CardEntity) : World × Option String :=
  Transaction w fun s =>
    match CardRepository.CreateCard s.world card with
    | (w1, _, some err) => ({ s with world := w1 }, some err)
    | (w1, card1, none) =>
      match createEach { s with world := w1 } (card1.CardBanks.map Stmt.createCardBank) with
      | (s2, some err) => (s2, some err)
      | (s2, none) => createEach s2 (card1.CardSocialMedia.map Stmt.createCardSocialMedia)

/-- The `updateData` map of `CardService.UpdateCard` (card_service.go 86-96). -/
def updateData (card : CardEntity) : Patch :=
  [("name", Value.str card.Name), ("slug", Value.str card.Slug),
    ("user_id", Value.uint card.UserID), ("photo", Value.str card.Photo),
    ("telephone", Value.str card.Telephone), ("email", Value.str card.Email),
    ("location", Value.str card.Location), ("website", Value.str card.Website),
    ("is_active", Value.bool card.IsActive)]

/-- `CardService.UpdateCard` (card_service.go 80-114): inside `db.Transaction`, the patch
through `s.repo.UpdateCard(ctx, id, updateData, 0)`; then the two
`tx.Where("card_id = ?", id).Delete(…)` calls, whose result is not inspected; then
`tx.Create` for every supplied `CardBanks` and `CardSocialMedia` element, returning at the
first error. -/
def UpdateCard (w : World) (id : Nat) (card : CardEntity) : World × Option String :=
  Transaction w fun s =>
    match CardRepository.UpdateCard s.world id (updateData card) 0 with
    | (w1, some err) => ({ s with world := w1 }, some err)
    | (w1, none) =>
      let s1 := ({ s with world := w1 }.exec (Stmt.deleteCardBanksWhere id)).1
      let s2 := (s1.exec (Stmt.deleteCardSocialMediaWhere id)).1
      match createEach s2 (card.CardBanks.map Stmt.createCardBank) with
      | (s3, some err) => (s3, some err)
      | (s3, none) => createEach s3 (card.CardSocialMedia.map Stmt.createCardSocialMedia)

/-- `CardService.DeleteCard` (card_service.go 116-118): `s.repo.DeleteCard(ctx, id)`. -/
def DeleteCard (w : World) (id : Nat) : World × Option String :=
  CardRepository.DeleteCard w id

end CardService

namespace InvitationService

/-- The loop over `invitation.Participants` in `CreateInvitation` and `UpdateInvitation`:
`Participants[i].InvitationID = id` and then `tx.Create(&Participants[i])`, returning at
the first error. -/
def createParticipants (s : TxState) (id : Nat) :
    List InvitationParticipant → TxState × Option String
  | [] => (s, none)
  | p :: rest =>
    match s.exec (Stmt.createInvitationParticipant { p with InvitationID := id }) with
    | (s1, some err) => (s1, some err)
    | (s1, none) => createParticipants s1 id rest

/-- The step `if invitation.InvitationDetail != nil { InvitationDetail.InvitationID = id;
tx.Create(invitation.InvitationDetail) }` of `CreateInvitation` and `UpdateInvitation`. -/
def createDetail (s : TxState) (id : Nat) : Option InvitationDetail → TxState × Option String
  | none => (s, none)
  | some d => s.exec (Stmt.createInvitationDetail { d with InvitationID := id })

/-- `InvitationService.CreateInvitation` (invitation_service.go 57-80): inside
`db.Transaction`, the parent insert through `s.repo.CreateInvitation(ctx, invitation)`,
then the detail and the participants, each stamped with `invitation.ID` and created on
`tx`. -/
def CreateInvitation (w : World) (invitation : Invitation) : World × Option String :=
  Transaction w fun s =>
    match InvitationRepository.CreateInvitation s.world invitation with
    | (w1, _, some err) => ({ s with world := w1 }, some err)
    | (w1, inv1, none) =>
      match createDetail { s with world := w1 } inv1.ID inv1.InvitationDetail with
      | (s2, some err) => (s2, some err)
      | (s2, none) => createParticipants s2 inv1.ID inv1.Participants

/-- The `updateData` map of `InvitationService.UpdateInvitation`
(invitation_service.go 88-107). -/
def updateData (invitation : Invitation) : Patch :=
  [("invitation_key", Value.str invitation.InvitationKey),
    ("user_id", Value.uint invitation.UserID),
    ("category_id", Value.uint invitation.CategoryID),
    ("template", Value.str invitation.Template), ("type", Value.str invitation.Type_),
    ("title", Value.str invitation.Title), ("image", Value.str invitation.Image),
    ("description", Value.str invitation.Description), ("venue", Value.str invitation.Venue),
    ("address", Value.str invitation.Address), ("location", Value.str invitation.Location),
    ("link", Value.str invitation.Link), ("telephone", Value.str invitation.Telephone),
    ("note", Value.str invitation.Note), ("date", Value.time invitation.Date),
    ("time", Value.time invitation.Time), ("is_confirmed", Value.bool invitation.IsConfirmed),
    ("is_participant", Value.bool invitation.IsParticipant)]

/-- `InvitationService.UpdateInvitation` (invitation_service.go 82-127): inside
`db.Transaction`, the patch through `s.repo.UpdateInvitation(ctx, id, updateData, 0)`;
then the two `tx.Where("invitation_id = ?", id).Delete(…)` calls, whose result is not
inspected; then the detail and the participants, each stamped with `id` and created on
`tx`. -/
def UpdateInvitation (w : World) (id : Nat) (invitation : Invitation) : World × Option String :=
  Transaction w fun s =>
    match InvitationRepository.UpdateInvitation s.world id (updateData invitation) 0 with
    | (w1, some err) => ({ s with world := w1 }, some err)
    | (w1, none) =>
      let s1 := ({ s with world := w1 }.exec (Stmt.deleteInvitationDetailsWhere id)).1
      let s2 := (s1.exec (Stmt.deleteInvitationParticipantsWhere id)).1
      match createDetail s2 id invitation.InvitationDetail with
      | (s3, some err) => (s3, some err)
      | (s3, none) => createParticipants s3 id invitation.Participants

/-- `InvitationService.DeleteInvitation` (invitation_service.go 129-136): inside
`db.Transaction` on `databaseconfig.GetDB()`, the two
`tx.Where("invitation_id = ?", id).Delete(…)` calls, whose result is not inspected, and
then `s.repo.DeleteInvitation(ctx, id)`, whose error is the callback's result. -/
def DeleteInvitation (w : World) (id : Nat) : World × Option String :=
  Transaction w fun s =>
    let s1 := (s.exec (Stmt.deleteInvitationDetailsWhere id)).1
    let s2 := (s1.exec (Stmt.deleteInvitationParticipantsWhere id)).1
    match InvitationRepository.DeleteInvitation s2.world id with
    | (w1, err) => ({ s2 with world := w1 }, err)

end InvitationService

/-! ## requests and handlers: what reaches the renderer and the write services -/

namespace requests

/-- CardRequest of `requests` (card_request.go 7-19): the validated form fields. -/
structure CardRequest where
  Name : String
  Slug : String
  UserID : Nat
  Photo : String
  Telephone : String
  Email : String
  Location : String
  Website : String
  IsActive : String
  BankIDs : List Nat
  SocialMediaIDs : List Nat
deriving DecidableEq, Repr

end requests

namespace handlers

/-- The statements from the service call to the render call, which are the same text in
the five dashboard list handlers (dashboard_card_handler.go 53-69): the `Result` entry of
the render data is the pointer the service returned, replaced when the service returned an
error by a fresh result with an empty slice and a meta that carries only `CurrentPage` and
`PerPage`. `none` is the `nil` pointer. -/
def renderResult {α : Type} (params : ListParams)
    (svcResult : Option (PaginatedResult α) × Option String) : Option (PaginatedResult α) :=
  match svcResult.2 with
  | none => svcResult.1
  | some _ =>
    some
      { Data := []
        Meta :=
          { CurrentPage := params.Page, PerPage := params.PerPage, TotalItems := 0,
            TotalPages := 0 } }

/-- The `Result` that `DashboardCardHandler.ListCards` hands to the renderer, with
`CardService.GetAllCards` as its service; `repo params` is what the repository returns
for the params. -/
def ListCards_Result (k : Consts) (parsed : ListParams) (parseErr : Bool)
    (repo : ListParams → List Card × Int × Option String) : Option (PaginatedResult Card) :=
  let params := ListCards_params k parsed parseErr
  renderResult params (CardService.GetAllCards (repo params) params)

/-- The `Result` that `DashboardInvitationHandler.ListInvitations` hands to the renderer,
with `InvitationService.GetAllInvitations` as its service. -/
def ListInvitations_Result (k : Consts) (parsed : ListParams) (parseErr : Bool)
    (repo : ListParams → List Invitation × Int × Option String) :
    Option (PaginatedResult Invitation) :=
  let params := ListInvitations_params k parsed parseErr
  renderResult params (InvitationService.GetAllInvitations (repo params) params)

/-- The card that `DashboardCardHandler.CreateCard` builds from the validated request
(dashboard_card_handler.go 89-106): the key is left at `0`, and every child is given
`CardID: card.ID`, which is `0` at that point. -/
def CreateCard_card (req : requests.CardRequest) : CardEntity :=
  let card : CardEntity :=
    { ID := 0
      Name := req.Name
      Slug := req.Slug
      UserID := req.UserID
      Photo := req.Photo
      Telephone := req.Telephone
      Email := req.Email
      Location := req.Location
      Website := req.Website
      IsActive := req.IsActive = "true"
      CardBanks := []
      CardSocialMedia := [] }
  { card with
    CardBanks := req.BankIDs.map fun bankID => { CardID := card.ID, BankID := bankID, IBAN := "" }
    CardSocialMedia :=
      req.SocialMediaIDs.map fun smID => { CardID := card.ID, SocialMediaID := smID, URL := "" } }

/-- `DashboardCardHandler.CreateCard` (dashboard_card_handler.go 85-111) for a request
that passed validation: the world after the service call and the HTTP status, `500` when
the service returned an error and `302` (the redirect) otherwise. -/
def DashboardCardHandler.CreateCard (w : World) (req : requests.CardRequest) : World × Nat :=
  match CardService.CreateCard w (CreateCard_card req) with
  | (w1, some _) => (w1, 500)
  | (w1, none) => (w1, 302)

end handlers

/-- A store with no rows, whose next generated key is `1`. -/
def emptyStore : Store :=
  { cards := [], cardBanks := [], cardSocialMedia := [], invitations := [],
    invitationDetails := [], invitationParticipants := [], nextID := 1 }

/-- An engine that carries out every statement. -/
def noFaults : Nat → Option String := fun _ => none

/-- An engine that fails the `n`-th statement of the call and carries out the others. -/
def failAt (n : Nat) : Nat → Option String :=
  fun i => if i = n then some "storage error" else none

/-- A store with card `1` of user `7`, three bank associations and one social-media
association of that card, and one bank association of card `2`. -/
def sampleCardStore : Store :=
  { emptyStore with
    cards := [{ ID := 1, UserID := 7, Name := "a", Slug := "a" }]
    cardBanks :=
      [{ CardID := 1, BankID := 10, IBAN := "x" }, { CardID := 1, BankID := 11, IBAN := "y" },
        { CardID := 2, BankID := 10, IBAN := "z" }, { CardID := 1, BankID := 12, IBAN := "" }]
    cardSocialMedia := [{ CardID := 1, SocialMediaID := 5, URL := "u" }]
    nextID := 3 }

/-- A store with invitation `4`, its detail row, two participants of it and one
participant of invitation `9`. -/
def sampleInvitationStore : Store :=
  { emptyStore with
    invitations := [{ ID := 4, UserID := 7, CategoryID := 2, InvitationKey := "k", Title := "t" }]
    invitationDetails := [{ InvitationID := 4, Title := "d", Person := "p" }]
    invitationParticipants :=
      [{ InvitationID := 4, Title := "p1", PhoneNumber := "1", GuestCount := 1 },
        { InvitationID := 9, Title := "q", PhoneNumber := "2", GuestCount := 2 },
        { InvitationID := 4, Title := "p2", PhoneNumber := "3", GuestCount := 3 }]
    nextID := 10 }

/-- A card request with two banks and one social-media account selected. -/
def sampleCardRequest : requests.CardRequest :=
  { Name := "card", Slug := "card", UserID := 7, Photo := "", Telephone := "", Email := "",
    Location := "", Website := "", IsActive := "true", BankIDs := [10, 11],
    SocialMediaIDs := [5] }

/-- An invitation as a caller may supply it, with a detail and two participants that
carry other invitation ids than the one they are saved under. -/
def sampleInvitation : Invitation :=
  { ID := 0, UserID := 7, CategoryID := 2, InvitationKey := "key", Title := "title",
    Template := "", Type_ := "", Image := "", Description := "", Venue := "", Address := "",
    Location := "", Link := "", Telephone := "", Note := "", Date := DateTime.zero,
    Time := DateTime.zero, IsConfirmed := false, IsParticipant := false,
    Participants :=
      [{ InvitationID := 0, Title := "n1", PhoneNumber := "5", GuestCount := 1 },
        { InvitationID := 77, Title := "n2", PhoneNumber := "6", GuestCount := 2 }]
    InvitationDetail := some { InvitationID := 99, Title := "dt", Person := "dp" } }

/-- The world at the start of a service call: the committed rows, the engine's answers
and an empty log. -/
def worldOf (s : Store) (faults : Nat → Option String) : World :=
  { store := s, faults := faults, log := [] }

/-- A card as `DashboardCardHandler.UpdateCard` builds it for `id = 1`: a new name and one
bank association carrying `CardID = 1`, no social-media association. -/
def sampleCardUpdate : CardEntity :=
  { ID := 0, UserID := 7, Name := "renamed", Slug := "a", Photo := "", Telephone := "",
    Email := "", Location := "", Website := "", IsActive := true,
    CardBanks := [{ CardID := 1, BankID := 20, IBAN := "" }], CardSocialMedia := [] }

/-! ## The acting user, and the handlers that update or delete -/

namespace models

/-- InvitationCategory of `models`, with the fields that
`DashboardInvitationCategoryHandler.UpdateCategory` sets. -/
structure InvitationCategory where
  Name : String
  Icon : String
  Template : String
  IsActive : Bool
deriving DecidableEq, Repr

end models

namespace requests

/-- InvitationRequest of `requests` (invitation_request.go 7-31): the validated form
fields (`Type_` is the Go field `Type`). -/
structure InvitationRequest where
  InvitationKey : String
  UserID : Nat
  CategoryID : Nat
  Template : String
  Type_ : String
  Title : String
  Image : String
  Description : String
  Venue : String
  Address : String
  Location : String
  Link : String
  Telephone : String
  Note : String
  Date : String
  Time : String
  IsConfirmed : String
  IsParticipant : String
  DetailTitle : String
  DetailPerson : String
  ParticipantTitles : List String
  ParticipantPhones : List String
  ParticipantCounts : List Int
deriving DecidableEq, Repr

end requests

namespace handlers

/-- A value stored in the request with `c.Locals(key, value)`: a `uint`, or a value of
another dynamic type. `c.Locals(key)` is `nil` (`none`) when nothing was stored. -/
inductive LocalValue where
  | uint (n : Nat)
  | other (text : String)
deriving DecidableEq, Repr

/-- The idiom `userID, _ := c.Locals("userID").(uint)`: the stored `uint`, and `0` when
nothing is stored or the value has another type. -/
def localUint (v : Option LocalValue) : Nat :=
  match v with
  | some (LocalValue.uint n) => n
  | _ => 0

/-- The form fields that `UpdateCategory` reads with `c.BodyParser(&req)`. -/
structure CategoryForm where
  Name : String
  Icon : String
  Template : String
  IsActive : String
deriving DecidableEq, Repr

/-- `DashboardInvitationCategoryHandler.UpdateCategory`
(dashboard_invitation_category_handler.go 114-163). `locals` is `c.Locals`, `svc` is
`h.categoryService.UpdateCategory` with the `ctx` argument left out. The value is the HTTP
status (`400` when a required field is empty, `500` when the service returns an error,
`302` for the redirect) and the arguments of the service call, if one was made. -/
def DashboardInvitationCategoryHandler.UpdateCategory (locals : String → Option LocalValue)
    (categoryID : Nat) (req : CategoryForm)
    (svc : Nat → InvitationCategory → Nat → Option String) :
    Nat × Option (Nat × InvitationCategory × Nat) :=
  if req.Name = "" ∨ req.Icon = "" ∨ req.Template = "" then (400, none)
  else
    let categoryData : InvitationCategory :=
      { Name := req.Name, Icon := req.Icon, Template := req.Template,
        IsActive := req.IsActive = "true" }
    let updatedBy : Nat :=
      match locals "user_id" with
      | none => 0
      | some v =>
        match v with
        | LocalValue.uint uid => uid
        | LocalValue.other _ => 0
    match svc categoryID categoryData updatedBy with
    | some _ => (500, some (categoryID, categoryData, updatedBy))
    | none => (302, some (categoryID, categoryData, updatedBy))

/-- The invitation that `DashboardInvitationHandler.UpdateInvitation` builds from the
validated request (dashboard_invitation_handler.go 133-154). The literal sets neither
`ID`, `Date`, `Time` nor `Participants`, which stay at their zero values, and the detail
carries only `Title` and `Person`. -/
def UpdateInvitation_invitation (req : requests.InvitationRequest) : Invitation :=
  { ID := 0
    InvitationKey := req.InvitationKey
    UserID := req.UserID
    CategoryID := req.CategoryID
    Template := req.Template
    Type_ := req.Type_
    Title := req.Title
    Image := req.Image
    Description := req.Description
    Venue := req.Venue
    Address := req.Address
    Location := req.Location
    Link := req.Link
    Telephone := req.Telephone
    Note := req.Note
    Date := DateTime.zero
    Time := DateTime.zero
    IsConfirmed := req.IsConfirmed = "true"
    IsParticipant := req.IsParticipant = "true"
    Participants := []
    InvitationDetail :=
      some { InvitationID := 0, Title := req.DetailTitle, Person := req.DetailPerson } }

/-- `DashboardInvitationHandler.UpdateInvitation` (dashboard_invitation_handler.go
128-161) for a request that passed validation: the world after the service call and the
HTTP status, `500` when the service returned an error and `302` otherwise. -/
def DashboardInvitationHandler.UpdateInvitation (w : World) (id : Nat)
    (req : requests.InvitationRequest) : World × Nat :=
  match InvitationService.UpdateInvitation w id (UpdateInvitation_invitation req) with
  | (w1, some _) => (w1, 500)
  | (w1, none) => (w1, 302)

/-- How a panel write handler ends: `Status(404).SendString("Kart bulunamadı")`, the error
that `requests.ValidateCardRequest` returned, `Status(500)`, or the redirect to
`/panel/cards`. -/
inductive PanelOutcome where
  | notFound
  | invalid
  | failed
  | redirected
deriving DecidableEq, Repr

/-- The card that `PanelCardHandler.UpdateCard` hands to the service
(panel_card_handler.go 143-159): the loaded card with the request's fields assigned,
`UserID` and `ID` not among them, and both child slices rebuilt with `CardID: uint(id)`. -/
def PanelCardHandler.UpdateCard_card (id : Nat) (card : CardEntity)
    (req : requests.CardRequest) : CardEntity :=
  { card with
    Name := req.Name
    Slug := req.Slug
    Photo := req.Photo
    Telephone := req.Telephone
    Email := req.Email
    Location := req.Location
    Website := req.Website
    IsActive := req.IsActive = "true"
    CardBanks := req.BankIDs.map fun bankID => { CardID := id, BankID := bankID, IBAN := "" }
    CardSocialMedia :=
      req.SocialMediaIDs.map fun smID => { CardID := id, SocialMediaID := smID, URL := "" } }

/-- `PanelCardHandler.UpdateCard` (panel_card_handler.go 133-164). `locals` is `c.Locals`;
`loaded` is what `h.cardService.GetCardByID` returned (`none` when it returned an error);
`validated` is the request that `requests.ValidateCardRequest` stored (`none` when it
returned an error). -/
def PanelCardHandler.UpdateCard (w : World) (id : Nat) (locals : String → Option LocalValue)
    (loaded : Option CardEntity) (validated : Option requests.CardRequest) :
    World × PanelOutcome :=
  let userID := localUint (locals "userID")
  match loaded with
  | none => (w, PanelOutcome.notFound)
  | some card =>
    if card.UserID ≠ userID then (w, PanelOutcome.notFound)
    else
      match validated with
      | none => (w, PanelOutcome.invalid)
      | some req =>
        match CardService.UpdateCard w id (PanelCardHandler.UpdateCard_card id card req) with
        | (w1, some _) => (w1, PanelOutcome.failed)
        | (w1, none) => (w1, PanelOutcome.redirected)

/-- `PanelCardHandler.DeleteCard` (panel_card_handler.go 166-177), with `locals` and
`loaded` as in `UpdateCard`. -/
def PanelCardHandler.DeleteCard (w : World) (id : Nat) (locals : String → Option LocalValue)
    (loaded : Option CardEntity) : World × PanelOutcome :=
  let userID := localUint (locals "userID")
  match loaded with
  | none => (w, PanelOutcome.notFound)
  | some card =>
    if card.UserID ≠ userID then (w, PanelOutcome.notFound)
    else
      match CardService.DeleteCard w id with
      | (w1, some _) => (w1, PanelOutcome.failed)
      | (w1, none) => (w1, PanelOutcome.redirected)

end handlers

/-! ## Statements in program order -/

/-- The acting-user stamp of an update statement. -/
def Stmt.updatedBy (st : Stmt) : Option Nat :=
  match st with
  | Stmt.updateCard _ _ updatedBy => some updatedBy
  | Stmt.updateInvitation _ _ updatedBy => some updatedBy
  | _ => none

/-- The key a parent row is inserted under: the entity's own when it is not `0`, else the
next generated one. -/
def insertKey (given : Nat) (s : Store) : Nat :=
  if given = 0 then s.nextID else given

/-- The child inserts of `CardService.CreateCard` and `CardService.UpdateCard` in the
order of the program text: the `CardBanks`, then the `CardSocialMedia`, each row as
supplied. -/
def CardService.childStatements (card : CardEntity) : List Stmt :=
  card.CardBanks.map Stmt.createCardBank ++ card.CardSocialMedia.map Stmt.createCardSocialMedia

/-- The statements of `CardService.CreateCard` in the order of the program text: the
parent insert through the repository, then the inserts of the `CardBanks` and of the
`CardSocialMedia` on `tx`. -/
def CardService.createStatements (w : World) (card : CardEntity) : List (Via × Stmt) :=
  (Via.repo, Stmt.createCard { card.toCard with ID := insertKey card.ID w.store }) ::
    (CardService.childStatements card).map fun st => (Via.tx, st)

/-- The statements of `CardService.UpdateCard` in the order of the program text: the
parent patch through the repository, the two child deletes on `tx`, then the child
inserts on `tx`. -/
def CardService.updateStatements (id : Nat) (card : CardEntity) : List (Via × Stmt) :=
  (Via.repo, Stmt.updateCard id (CardService.updateData card) 0) ::
    (Via.tx, Stmt.deleteCardBanksWhere id) ::
    (Via.tx, Stmt.deleteCardSocialMediaWhere id) ::
    (CardService.childStatements card).map fun st => (Via.tx, st)

/-- The child inserts of `CreateInvitation` and `UpdateInvitation` for the parent key
`id`, in the order of the program text: the detail, if any, then the participants. -/
def InvitationService.childStatements (id : Nat) (invitation : Invitation) : List Stmt :=
  (invitation.InvitationDetail.toList.map fun d =>
      Stmt.createInvitationDetail { d with InvitationID := id }) ++
    invitation.Participants.map fun p =>
      Stmt.createInvitationParticipant { p with InvitationID := id }

/-- The statements of `InvitationService.CreateInvitation` in the order of the program
text: the parent insert through the repository, then the child inserts on `tx`. -/
def InvitationService.createStatements (w : World) (invitation : Invitation) :
    List (Via × Stmt) :=
  (Via.repo,
      Stmt.createInvitation
        { invitation.toInvitationRow with ID := insertKey invitation.ID w.store }) ::
    (InvitationService.childStatements (insertKey invitation.ID w.store) invitation).map
      fun st => (Via.tx, st)

/-- The statements of `InvitationService.UpdateInvitation` in the order of the program
text: the parent patch through the repository, the two child deletes on `tx`, then the
child inserts on `tx`. -/
def InvitationService.updateStatements (id : Nat) (invitation : Invitation) :
    List (Via × Stmt) :=
  (Via.repo, Stmt.updateInvitation id (InvitationService.updateData invitation) 0) ::
    (Via.tx, Stmt.deleteInvitationDetailsWhere id) ::
    (Via.tx, Stmt.deleteInvitationParticipantsWhere id) ::
    (InvitationService.childStatements id invitation).map fun st => (Via.tx, st)

/-- A statement leaves the detail rows and the participant rows of the invitations other
than `id` as they are, in whatever store it is carried out. -/
def Stmt.keepsOthers (id : Nat) (st : Stmt) : Prop :=
  ∀ s : Store,
    ((st.apply s).invitationDetails.filter fun r => r.InvitationID ≠ id) =
        (s.invitationDetails.filter fun r => r.InvitationID ≠ id) ∧
      ((st.apply s).invitationParticipants.filter fun r => r.InvitationID ≠ id) =
        (s.invitationParticipants.filter fun r => r.InvitationID ≠ id)

/-- An engine that fails the `n`-th statement of the call with the error `e`. -/
def failWith (n : Nat) (e : String) : Nat → Option String :=
  fun i => if i = n then some e else none

/-- An invitation request that carries a date, a time and participant fields. -/
def sampleInvitationRequest : requests.InvitationRequest :=
  { InvitationKey := "key", UserID := 7, CategoryID := 2, Template := "", Type_ := "",
    Title := "title", Image := "", Description := "", Venue := "", Address := "",
    Location := "", Link := "", Telephone := "", Note := "", Date := "2025-06-01",
    Time := "18:30", IsConfirmed := "true", IsParticipant := "", DetailTitle := "dt",
    DetailPerson := "dp", ParticipantTitles := ["n1"], ParticipantPhones := ["5"],
    ParticipantCounts := [1] }

/-- Card `1` of user `7` as `GetCardByID` loads it. -/
def sampleLoadedCard : CardEntity :=
  { ID := 1, UserID := 7, Name := "a", Slug := "a", Photo := "", Telephone := "", Email := "",
    Location := "", Website := "", IsActive := true,
    CardBanks := [{ CardID := 1, BankID := 10, IBAN := "x" }], CardSocialMedia := [] }

/-- A `c.Locals` in which only `"userID"` is stored, as the `uint` `n`. -/
def localsWithUserID (n : Nat) : String → Option handlers.LocalValue :=
  fun key => if key = "userID" then some (handlers.LocalValue.uint n) else none

/-! ## Lemmas on the normalisation -/

open handlers

theorem mem_listHandlers {h : Consts → ListParams → Bool → ListParams}
    (hh : h ∈ listHandlers) : h = normalizeQuery := by
  simp only [listHandlers, List.mem_cons, List.mem_singleton, List.not_mem_nil, or_false] at hh
  rcases hh with rfl | rfl | rfl | rfl | rfl <;> rfl

theorem normalizeQuery_fullyResolved (k : Consts) (hk : k.Valid) (p : ListParams) (e : Bool) :
    FullyResolved k.MaxPerPage (normalizeQuery k p e) := by
  obtain ⟨h1, h2, h3, h4⟩ := hk
  unfold normalizeQuery FullyResolved DefaultListParams DefaultPage
  simp only []
  split_ifs <;> simp_all <;> omega

theorem normalizeQuery_orderBy (k : Consts) (p : ListParams) (e : Bool) :
    (normalizeQuery k p e).OrderBy =
      if (if e = true then k.DefaultOrderBy else p.OrderBy) = "" then k.DefaultOrderBy
      else (if e = true then k.DefaultOrderBy else p.OrderBy) := by
  unfold normalizeQuery DefaultListParams DefaultPage
  simp only []
  split_ifs <;> simp_all

/-! ## Lemmas on the page count and on 64-bit wrapping -/

theorem CalculateTotalPages_eq_ceil (t p : Int) (hp : 0 < p) :
    CalculateTotalPages t p = ⌈(t : ℚ) / (p : ℚ)⌉ := by
  unfold CalculateTotalPages
  rw [if_neg (not_le.mpr hp)]
  symm
  rw [Int.ceil_eq_iff]
  have hpq : (0 : ℚ) < (p : ℚ) := by exact_mod_cast hp
  have h1 : (t + p - 1) / p * p ≤ t + p - 1 := Int.ediv_mul_le _ (ne_of_gt hp)
  have h2 : t + p - 1 < ((t + p - 1) / p + 1) * p := Int.lt_ediv_add_one_mul_self _ hp
  constructor
  · rw [lt_div_iff₀ hpq]
    have : ((t + p - 1) / p - 1) * p < t := by nlinarith
    exact_mod_cast this
  · rw [div_le_iff₀ hpq]
    have : t ≤ (t + p - 1) / p * p := by nlinarith
    exact_mod_cast this

theorem CalculateTotalPages_zero (p : Int) : CalculateTotalPages 0 p = 0 := by
  unfold CalculateTotalPages
  split_ifs with h
  · rfl
  · apply Int.ediv_eq_zero_of_lt <;> omega

theorem wrapInt_mul_wrapInt (a b : Int) : wrapInt (wrapInt a * b) = wrapInt (a * b) := by
  unfold wrapInt
  have h : (a + 2 ^ 63) % 2 ^ 64 = a + 2 ^ 63 - 2 ^ 64 * ((a + 2 ^ 63) / 2 ^ 64) := by
    have := Int.emod_add_ediv (a + 2 ^ 63) (2 ^ 64)
    omega
  rw [h]
  have : (a + 2 ^ 63 - 2 ^ 64 * ((a + 2 ^ 63) / 2 ^ 64) - 2 ^ 63) * b + 2 ^ 63
      = (a * b + 2 ^ 63) + 2 ^ 64 * (-(((a + 2 ^ 63) / 2 ^ 64) * b)) := by ring
  rw [this, Int.add_mul_emod_self_left]

theorem wrapInt_of_lt (x : Int) (h0 : 0 ≤ x) (h1 : x < 2 ^ 63) : wrapInt x = x := by
  unfold wrapInt
  omega

/-! ## Lemmas on the query evaluation -/

theorem mem_ownedBy {userID : Nat} {table : List Card} {c : Card} :
    c ∈ ownedBy userID table ↔ c ∈ table ∧ c.UserID = userID := by
  simp [ownedBy, List.mem_filter]

theorem mem_applyOffset {offset : Int} {rows : List Card} {c : Card}
    (h : c ∈ applyOffset offset rows) : c ∈ rows := by
  unfold applyOffset at h
  split_ifs at h
  · exact List.mem_of_mem_drop h
  · exact h

theorem mem_applyLimit {e : Engine} {limit : Int} {rows : List Card} {c : Card}
    (h : c ∈ applyLimit e limit rows) : c ∈ rows := by
  unfold applyLimit at h
  split_ifs at h
  · exact List.mem_of_mem_take h
  · simp at h
  · exact h

theorem length_applyLimit (e : Engine) (limit : Int) (rows : List Card) (hl : 1 ≤ limit) :
    ((applyLimit e limit rows).length : Int) ≤ limit := by
  unfold applyLimit
  rw [if_pos (by omega)]
  have := List.length_take_le limit.toNat rows
  omega

theorem find_length (e : Engine) (table : List Card) (q : Query) (hl : 1 ≤ q.limit) :
    ((e.find table q).1.length : Int) ≤ q.limit := by
  unfold Engine.find
  split
  · simp; omega
  · exact length_applyLimit e _ _ hl

theorem find_mem (e : Engine) (he : e.Sound) (table : List Card) (q : Query) (c : Card)
    (hc : c ∈ (e.find table q).1) : c ∈ table ∧ c.UserID = q.userID := by
  unfold Engine.find at hc
  split at hc
  · simp at hc
  · next rows hrows =>
    have h1 := mem_applyOffset (mem_applyLimit hc)
    exact mem_ownedBy.mp ((he _ _ _ hrows).subset h1)

theorem sampleEngine_sound : sampleEngine.Sound := by
  intro clause rows sorted h
  simp only [sampleEngine, Option.some.injEq] at h
  rw [← h]

/-! ## Lemmas on the write path -/

theorem exec_fst_of_ok (s : TxState) (st : Stmt) (h : (s.exec st).2 = none) :
    s.exec st =
      ({ world := { s.world with log := s.world.log ++ [(Via.tx, st)] }
         pending := s.pending ++ [st] }, none) := by
  unfold TxState.exec at h ⊢
  cases hf : s.world.faults s.world.log.length with
  | none => rfl
  | some e => rw [hf] at h; simp at h

theorem exec_of_noFault (s : TxState) (st : Stmt)
    (h : s.world.faults s.world.log.length = none) :
    s.exec st =
      ({ world := { s.world with log := s.world.log ++ [(Via.tx, st)] }
         pending := s.pending ++ [st] }, none) := by
  unfold TxState.exec
  rw [h]

theorem createEach_of_ok (l : List Stmt) (s : TxState) (h : (createEach s l).2 = none) :
    createEach s l =
      ({ world := { s.world with log := s.world.log ++ l.map fun st => (Via.tx, st) }
         pending := s.pending ++ l }, none) := by
  induction l generalizing s with
  | nil => simp [createEach]
  | cons st rest ih =>
    unfold createEach at h ⊢
    rcases hx : s.exec st with ⟨s1, _ | e⟩
    · rw [hx] at h
      simp only at h ⊢
      have hx2 := exec_fst_of_ok s st (by rw [hx])
      rw [hx] at hx2
      have hs1 := (Prod.mk.inj hx2).1
      rw [ih s1 h, hs1]
      simp
    · rw [hx] at h; simp at h

theorem createEach_of_noFaults (l : List Stmt) (s : TxState)
    (h : ∀ n, s.world.faults n = none) : (createEach s l).2 = none := by
  induction l generalizing s with
  | nil => simp [createEach]
  | cons st rest ih =>
    unfold createEach
    rw [exec_of_noFault s st (h _)]
    exact ih _ h

theorem createParticipants_eq (l : List InvitationParticipant) (id : Nat) (s : TxState) :
    InvitationService.createParticipants s id l =
      createEach s
        (l.map fun p => Stmt.createInvitationParticipant { p with InvitationID := id }) := by
  induction l generalizing s with
  | nil => rfl
  | cons p rest ih =>
    simp only [InvitationService.createParticipants, List.map_cons, createEach]
    rcases s.exec _ with ⟨s1, _ | e⟩
    · exact ih s1
    · rfl

theorem commit_append (a b : List Stmt) (s : Store) :
    commit (a ++ b) s = commit b (commit a s) := by
  simp [commit, List.foldl_append]

theorem commit_createCardBanks (l : List CardBank) (s : Store) :
    commit (l.map Stmt.createCardBank) s = { s with cardBanks := s.cardBanks ++ l } := by
  induction l generalizing s with
  | nil => simp [commit]
  | cons b rest ih =>
    have : commit (List.map Stmt.createCardBank (b :: rest)) s
        = commit (rest.map Stmt.createCardBank) (Stmt.apply (Stmt.createCardBank b) s) := rfl
    rw [this, ih]
    simp [Stmt.apply]

theorem createEach_append (a b : List Stmt) (s : TxState) :
    createEach s (a ++ b) =
      match createEach s a with
      | (s2, some err) => (s2, some err)
      | (s2, none) => createEach s2 b := by
  induction a generalizing s with
  | nil => simp [createEach]
  | cons st rest ih =>
    simp only [List.cons_append, createEach]
    rcases s.exec st with ⟨s1, _ | e⟩
    · exact ih s1
    · rfl

theorem createDetail_eq (d : Option InvitationDetail) (id : Nat) (s : TxState) :
    InvitationService.createDetail s id d =
      createEach s
        ((d.map fun x => Stmt.createInvitationDetail { x with InvitationID := id }).toList) := by
  cases d with
  | none => rfl
  | some x =>
    simp only [InvitationService.createDetail, Option.map_some', Option.toList_some, createEach]
    rcases s.exec _ with ⟨s1, _ | e⟩ <;> rfl

theorem commit_createCardSocialMedia (l : List CardSocialMedia) (s : Store) :
    commit (l.map Stmt.createCardSocialMedia) s =
      { s with cardSocialMedia := s.cardSocialMedia ++ l } := by
  induction l generalizing s with
  | nil => simp [commit]
  | cons b rest ih =>
    have : commit (List.map Stmt.createCardSocialMedia (b :: rest)) s
        = commit (rest.map Stmt.createCardSocialMedia)
            (Stmt.apply (Stmt.createCardSocialMedia b) s) := rfl
    rw [this, ih]
    simp [Stmt.apply]

theorem commit_createInvitationParticipants (l : List InvitationParticipant) (s : Store) :
    commit (l.map Stmt.createInvitationParticipant) s =
      { s with invitationParticipants := s.invitationParticipants ++ l } := by
  induction l generalizing s with
  | nil => simp [commit]
  | cons b rest ih =>
    have : commit (List.map Stmt.createInvitationParticipant (b :: rest)) s
        = commit (rest.map Stmt.createInvitationParticipant)
            (Stmt.apply (Stmt.createInvitationParticipant b) s) := rfl
    rw [this, ih]
    simp [Stmt.apply]

theorem commit_createInvitationDetails (l : List InvitationDetail) (s : Store) :
    commit (l.map Stmt.createInvitationDetail) s =
      { s with invitationDetails := s.invitationDetails ++ l } := by
  induction l generalizing s with
  | nil => simp [commit]
  | cons b rest ih =>
    have : commit (List.map Stmt.createInvitationDetail (b :: rest)) s
        = commit (rest.map Stmt.createInvitationDetail)
            (Stmt.apply (Stmt.createInvitationDetail b) s) := rfl
    rw [this, ih]
    simp [Stmt.apply]

theorem commit_createInvitationDetails_map {α : Type} (f : α → InvitationDetail) (l : List α)
    (s : Store) :
    commit (l.map fun x => Stmt.createInvitationDetail (f x)) s =
      { s with invitationDetails := s.invitationDetails ++ l.map f } := by
  rw [← commit_createInvitationDetails, List.map_map]
  rfl

theorem commit_createInvitationParticipants_map {α : Type} (f : α → InvitationParticipant)
    (l : List α) (s : Store) :
    commit (l.map fun x => Stmt.createInvitationParticipant (f x)) s =
      { s with invitationParticipants := s.invitationParticipants ++ l.map f } := by
  rw [← commit_createInvitationParticipants, List.map_map]
  rfl

/-- The statements that `CreateInvitation` and `UpdateInvitation` issue on `tx` for the
children, each stamped with `id`. -/
theorem invitation_children_as_createEach (s : TxState) (id : Nat) (inv : Invitation) :
    (match InvitationService.createDetail s id inv.InvitationDetail with
      | (s2, some err) => (s2, some err)
      | (s2, none) => InvitationService.createParticipants s2 id inv.Participants) =
      createEach s
        ((inv.InvitationDetail.toList.map fun x =>
            Stmt.createInvitationDetail { x with InvitationID := id }) ++
          inv.Participants.map fun p =>
            Stmt.createInvitationParticipant { p with InvitationID := id }) := by
  rw [createEach_append, createDetail_eq]
  have : (Option.map (fun x => Stmt.createInvitationDetail { x with InvitationID := id })
      inv.InvitationDetail).toList =
      inv.InvitationDetail.toList.map fun x =>
        Stmt.createInvitationDetail { x with InvitationID := id } := by
    cases inv.InvitationDetail <;> rfl
  rw [this]
  rcases createEach s _ with ⟨s2, _ | e⟩
  · exact createParticipants_eq _ _ _
  · rfl

theorem Transaction_snd (w : World) (fc : TxState → TxState × Option String) :
    (Transaction w fc).2 = (fc { world := w, pending := [] }).2 := by
  unfold Transaction
  rcases fc { world := w, pending := [] } with ⟨s, _ | e⟩ <;> rfl

theorem Transaction_fst_of_ok (w : World) (fc : TxState → TxState × Option String)
    (h : (fc { world := w, pending := [] }).2 = none) :
    (Transaction w fc).1 =
      { (fc { world := w, pending := [] }).1.world with
        store := commit (fc { world := w, pending := [] }).1.pending
          (fc { world := w, pending := [] }).1.world.store } := by
  unfold Transaction
  rcases hx : fc { world := w, pending := [] } with ⟨s, _ | e⟩
  · rfl
  · rw [hx] at h; simp at h

theorem Transaction_fst_of_err (w : World) (fc : TxState → TxState × Option String)
    (h : (fc { world := w, pending := [] }).2 ≠ none) :
    (Transaction w fc).1 = (fc { world := w, pending := [] }).1.world := by
  unfold Transaction
  rcases hx : fc { world := w, pending := [] } with ⟨s, _ | e⟩
  · rw [hx] at h; simp at h
  · rfl

theorem commit_createCardBanks_map {α : Type} (f : α → CardBank) (l : List α) (s : Store) :
    commit (l.map fun x => Stmt.createCardBank (f x)) s =
      { s with cardBanks := s.cardBanks ++ l.map f } := by
  rw [← commit_createCardBanks, List.map_map]
  rfl

theorem commit_nil (s : Store) : commit [] s = s := rfl

theorem commit_cons (st : Stmt) (rest : List Stmt) (s : Store) :
    commit (st :: rest) s = commit rest (st.apply s) := rfl

theorem filter_eq_of_filter_ne {α : Type} (key : α → Nat) (id : Nat) (l : List α) :
    (l.filter fun r => key r ≠ id).filter (fun r => key r = id) = [] := by
  simp [List.filter_filter, List.filter_eq_nil_iff]

theorem noFaults_apply (n : Nat) : noFaults n = none := rfl

/-! ## Lemmas on the statements issued and on the frame -/

theorem exec_log (s : TxState) (st : Stmt) :
    (s.exec st).1.world.log = s.world.log ++ [(Via.tx, st)] := by
  unfold TxState.exec
  cases s.world.faults s.world.log.length <;> rfl

theorem exec_store (s : TxState) (st : Stmt) : (s.exec st).1.world.store = s.world.store := by
  unfold TxState.exec
  cases s.world.faults s.world.log.length <;> rfl

theorem exec_faults (s : TxState) (st : Stmt) : (s.exec st).1.world.faults = s.world.faults := by
  unfold TxState.exec
  cases s.world.faults s.world.log.length <;> rfl

theorem exec_pending_mem (s : TxState) (st x : Stmt) (h : x ∈ (s.exec st).1.pending) :
    x ∈ s.pending ∨ x = st := by
  unfold TxState.exec at h
  cases hf : s.world.faults s.world.log.length with
  | none => rw [hf] at h; simpa using h
  | some e => rw [hf] at h; exact Or.inl h

theorem exec_err (s : TxState) (st : Stmt) (e : String) (h : (s.exec st).2 = some e) :
    s.world.faults s.world.log.length = some e := by
  unfold TxState.exec at h
  cases hf : s.world.faults s.world.log.length with
  | none => rw [hf] at h; simp at h
  | some e' => rw [hf] at h; simpa using h

theorem createEach_store (l : List Stmt) (s : TxState) :
    (createEach s l).1.world.store = s.world.store := by
  induction l generalizing s with
  | nil => rfl
  | cons st rest ih =>
    unfold createEach
    rcases hx : s.exec st with ⟨s1, _ | e⟩
    · simp only []
      rw [ih s1]
      have := exec_store s st
      rw [hx] at this
      exact this
    · have := exec_store s st
      rw [hx] at this
      exact this

theorem createEach_faults (l : List Stmt) (s : TxState) :
    (createEach s l).1.world.faults = s.world.faults := by
  induction l generalizing s with
  | nil => rfl
  | cons st rest ih =>
    unfold createEach
    rcases hx : s.exec st with ⟨s1, _ | e⟩
    · simp only []
      rw [ih s1]
      have := exec_faults s st
      rw [hx] at this
      exact this
    · have := exec_faults s st
      rw [hx] at this
      exact this

theorem createEach_log (l : List Stmt) (s : TxState) :
    ∃ k, (createEach s l).1.world.log =
      s.world.log ++ (l.take k).map fun st => (Via.tx, st) := by
  induction l generalizing s with
  | nil => exact ⟨0, by simp [createEach]⟩
  | cons st rest ih =>
    unfold createEach
    have hlog := exec_log s st
    rcases hx : s.exec st with ⟨s1, _ | e⟩
    · rw [hx] at hlog
      obtain ⟨k, hk⟩ := ih s1
      refine ⟨k + 1, ?_⟩
      simp only [] at hlog ⊢
      rw [hk, hlog]
      simp
    · rw [hx] at hlog
      refine ⟨1, ?_⟩
      simp only [] at hlog ⊢
      rw [hlog]
      simp

theorem createEach_pending_mem (l : List Stmt) (s : TxState) (x : Stmt)
    (h : x ∈ (createEach s l).1.pending) : x ∈ s.pending ∨ x ∈ l := by
  induction l generalizing s with
  | nil => exact Or.inl h
  | cons st rest ih =>
    unfold createEach at h
    rcases hx : s.exec st with ⟨s1, _ | e⟩
    · rw [hx] at h
      simp only [] at h
      have hp := fun y hy => exec_pending_mem s st y hy
      rw [hx] at hp
      rcases ih s1 h with h1 | h1
      · rcases hp x h1 with h2 | h2
        · exact Or.inl h2
        · exact Or.inr (by simp [h2])
      · exact Or.inr (List.mem_cons_of_mem _ h1)
    · rw [hx] at h
      simp only [] at h
      have hp := exec_pending_mem s st x
      rw [hx] at hp
      rcases hp h with h2 | h2
      · exact Or.inl h2
      · exact Or.inr (by simp [h2])

theorem createEach_err (l : List Stmt) (s : TxState) (e : String)
    (h : (createEach s l).2 = some e) : ∃ n, s.world.faults n = some e := by
  induction l generalizing s with
  | nil => simp [createEach] at h
  | cons st rest ih =>
    unfold createEach at h
    rcases hx : s.exec st with ⟨s1, _ | e'⟩
    · rw [hx] at h
      simp only [] at h
      obtain ⟨n, hn⟩ := ih s1 h
      have hf := exec_faults s st
      rw [hx] at hf
      simp only [] at hf
      exact ⟨n, by rw [← hf]; exact hn⟩
    · rw [hx] at h
      simp only [] at h
      exact ⟨_, exec_err s st e (by rw [hx]; exact h)⟩

theorem issue_log (w : World) (st : Stmt) : (w.issue st).1.log = w.log ++ [(Via.repo, st)] := by
  unfold World.issue
  cases w.faults w.log.length <;> rfl

theorem issue_faults (w : World) (st : Stmt) : (w.issue st).1.faults = w.faults := by
  unfold World.issue
  cases w.faults w.log.length <;> rfl

theorem issue_err (w : World) (st : Stmt) (e : String) (h : (w.issue st).2 = some e) :
    w.faults w.log.length = some e := by
  unfold World.issue at h
  cases hf : w.faults w.log.length with
  | none => rw [hf] at h; simp at h
  | some e' => rw [hf] at h; simpa using h

theorem issue_store (w : World) (st : Stmt) :
    (w.issue st).1.store = w.store ∨ (w.issue st).1.store = st.apply w.store := by
  unfold World.issue
  cases w.faults w.log.length
  · exact Or.inr rfl
  · exact Or.inl rfl

theorem Transaction_log (w : World) (fc : TxState → TxState × Option String) :
    (Transaction w fc).1.log = (fc { world := w, pending := [] }).1.world.log := by
  unfold Transaction
  rcases fc { world := w, pending := [] } with ⟨s, _ | e⟩ <;> rfl

theorem Transaction_store (w : World) (fc : TxState → TxState × Option String) :
    (Transaction w fc).1.store =
        commit (fc { world := w, pending := [] }).1.pending
          (fc { world := w, pending := [] }).1.world.store ∨
      (Transaction w fc).1.store = (fc { world := w, pending := [] }).1.world.store := by
  unfold Transaction
  rcases fc { world := w, pending := [] } with ⟨s, _ | e⟩
  · exact Or.inl rfl
  · exact Or.inr rfl
theorem CreateCard_log (w : World) (card : CardEntity) :
    ∃ k, 1 ≤ k ∧
      (CardService.CreateCard w card).1.log =
        w.log ++ (CardService.createStatements w card).take k := by
  unfold CardService.CreateCard
  rw [Transaction_log]
  simp only [CardRepository.CreateCard, BaseRepository.CreateCard, World.issue]
  cases hf : w.faults w.log.length with
  | some e =>
    exact ⟨1, le_refl 1, by simp [CardService.createStatements, insertKey]⟩
  | none =>
    simp only []
    rw [← createEach_append]
    obtain ⟨k, hk⟩ := createEach_log
      (card.CardBanks.map Stmt.createCardBank ++
        card.CardSocialMedia.map Stmt.createCardSocialMedia)
      { world :=
          { w with
            log := w.log ++ [(Via.repo, Stmt.createCard
              { card.toCard with ID := if card.ID = 0 then w.store.nextID else card.ID })]
            store := (Stmt.createCard
              { card.toCard with ID := if card.ID = 0 then w.store.nextID else card.ID }).apply
                w.store }
        pending := [] }
    refine ⟨k + 1, by omega, ?_⟩
    rw [hk]
    simp [CardService.createStatements, CardService.childStatements, insertKey, List.map_take]

theorem UpdateCard_log (w : World) (id : Nat) (card : CardEntity) :
    ∃ k, 1 ≤ k ∧
      (CardService.UpdateCard w id card).1.log =
        w.log ++ (CardService.updateStatements id card).take k := by
  unfold CardService.UpdateCard
  rw [Transaction_log]
  simp only [CardRepository.UpdateCard, BaseRepository.UpdateCard, World.issue]
  cases hf : w.faults w.log.length with
  | some e =>
    exact ⟨1, le_refl 1, by simp [CardService.updateStatements]⟩
  | none =>
    simp only []
    split_ifs with hany
    · simp only []
      rw [← createEach_append]
      obtain ⟨k, hk⟩ := createEach_log
        (card.CardBanks.map Stmt.createCardBank ++
          card.CardSocialMedia.map Stmt.createCardSocialMedia)
        (TxState.exec
          (TxState.exec
            { world :=
                { w with
                  log := w.log ++
                    [(Via.repo, Stmt.updateCard id (CardService.updateData card) 0)]
                  store := (Stmt.updateCard id (CardService.updateData card) 0).apply w.store }
              pending := [] }
            (Stmt.deleteCardBanksWhere id)).1
          (Stmt.deleteCardSocialMediaWhere id)).1
      refine ⟨k + 3, by omega, ?_⟩
      rw [hk, exec_log, exec_log]
      simp [CardService.updateStatements, CardService.childStatements, List.map_take]
    · exact ⟨1, le_refl 1, by simp [CardService.updateStatements]⟩

theorem CreateInvitation_log (w : World) (invitation : Invitation) :
    ∃ k, 1 ≤ k ∧
      (InvitationService.CreateInvitation w invitation).1.log =
        w.log ++ (InvitationService.createStatements w invitation).take k := by
  unfold InvitationService.CreateInvitation
  rw [Transaction_log]
  simp only [InvitationRepository.CreateInvitation, BaseRepository.CreateInvitation,
    World.issue]
  cases hf : w.faults w.log.length with
  | some e =>
    exact ⟨1, le_refl 1, by simp [InvitationService.createStatements, insertKey]⟩
  | none =>
    simp only []
    rw [invitation_children_as_createEach]
    obtain ⟨k, hk⟩ := createEach_log
      ((invitation.InvitationDetail.toList.map fun x =>
          Stmt.createInvitationDetail
            { x with InvitationID := if invitation.ID = 0 then w.store.nextID
                else invitation.ID }) ++
        invitation.Participants.map fun p =>
          Stmt.createInvitationParticipant
            { p with InvitationID := if invitation.ID = 0 then w.store.nextID
                else invitation.ID })
      { world :=
          { w with
            log := w.log ++ [(Via.repo, Stmt.createInvitation
              { invitation.toInvitationRow with
                ID := if invitation.ID = 0 then w.store.nextID else invitation.ID })]
            store := (Stmt.createInvitation
              { invitation.toInvitationRow with
                ID := if invitation.ID = 0 then w.store.nextID else invitation.ID }).apply
                w.store }
        pending := [] }
    refine ⟨k + 1, by omega, ?_⟩
    simp only [] at hk ⊢
    rw [hk]
    simp [InvitationService.createStatements, InvitationService.childStatements, insertKey,
      List.map_take]

theorem UpdateInvitation_log (w : World) (id : Nat) (invitation : Invitation) :
    ∃ k, 1 ≤ k ∧
      (InvitationService.UpdateInvitation w id invitation).1.log =
        w.log ++ (InvitationService.updateStatements id invitation).take k := by
  unfold InvitationService.UpdateInvitation
  rw [Transaction_log]
  simp only [InvitationRepository.UpdateInvitation, BaseRepository.UpdateInvitation,
    World.issue]
  cases hf : w.faults w.log.length with
  | some e =>
    exact ⟨1, le_refl 1, by simp [InvitationService.updateStatements]⟩
  | none =>
    simp only []
    split_ifs with hany
    · simp only []
      rw [invitation_children_as_createEach]
      obtain ⟨k, hk⟩ := createEach_log
        ((invitation.InvitationDetail.toList.map fun x =>
            Stmt.createInvitationDetail { x with InvitationID := id }) ++
          invitation.Participants.map fun p =>
            Stmt.createInvitationParticipant { p with InvitationID := id })
        (TxState.exec
          (TxState.exec
            { world :=
                { w with
                  log := w.log ++
                    [(Via.repo,
                      Stmt.updateInvitation id (InvitationService.updateData invitation) 0)]
                  store :=
                    (Stmt.updateInvitation id (InvitationService.updateData invitation)
                      0).apply w.store }
              pending := [] }
            (Stmt.deleteInvitationDetailsWhere id)).1
          (Stmt.deleteInvitationParticipantsWhere id)).1
      refine ⟨k + 3, by omega, ?_⟩
      rw [hk, exec_log, exec_log]
      simp [InvitationService.updateStatements, InvitationService.childStatements,
        List.map_take]
    · exact ⟨1, le_refl 1, by simp [InvitationService.updateStatements]⟩
theorem CreateCard_err (w : World) (card : CardEntity) (e : String)
    (h : (CardService.CreateCard w card).2 = some e) : ∃ n, w.faults n = some e := by
  unfold CardService.CreateCard at h
  rw [Transaction_snd] at h
  simp only [CardRepository.CreateCard, BaseRepository.CreateCard, World.issue] at h
  cases hf : w.faults w.log.length with
  | some e' =>
    rw [hf] at h
    exact ⟨_, by rw [hf]; simpa using h⟩
  | none =>
    rw [hf] at h
    simp only [] at h
    rw [← createEach_append] at h
    exact createEach_err _ _ e h

theorem UpdateCard_err (w : World) (id : Nat) (card : CardEntity) (e : String)
    (h : (CardService.UpdateCard w id card).2 = some e) :
    e = "record not found" ∨ ∃ n, w.faults n = some e := by
  unfold CardService.UpdateCard at h
  rw [Transaction_snd] at h
  simp only [CardRepository.UpdateCard, BaseRepository.UpdateCard, World.issue] at h
  cases hf : w.faults w.log.length with
  | some e' =>
    rw [hf] at h
    exact Or.inr ⟨_, by rw [hf]; simpa using h⟩
  | none =>
    rw [hf] at h
    simp only [] at h
    split_ifs at h with hany
    · simp only [] at h
      rw [← createEach_append] at h
      obtain ⟨n, hn⟩ := createEach_err _ _ e h
      rw [exec_faults, exec_faults] at hn
      exact Or.inr ⟨n, hn⟩
    · exact Or.inl (by simpa using h.symm)

theorem keepsOthers_of_child_tables (id : Nat) (st : Stmt)
    (h : ∀ s : Store, (st.apply s).invitationDetails = s.invitationDetails ∧
      (st.apply s).invitationParticipants = s.invitationParticipants) :
    st.keepsOthers id := by
  intro s
  rw [(h s).1, (h s).2]
  exact ⟨rfl, rfl⟩

theorem keepsOthers_updateInvitation (id k : Nat) (data : Patch) (u : Nat) :
    (Stmt.updateInvitation k data u).keepsOthers id :=
  keepsOthers_of_child_tables id _ fun _ => ⟨rfl, rfl⟩

theorem keepsOthers_deleteInvitation (id k : Nat) : (Stmt.deleteInvitation k).keepsOthers id :=
  keepsOthers_of_child_tables id _ fun _ => ⟨rfl, rfl⟩

theorem keepsOthers_deleteDetails (id : Nat) :
    (Stmt.deleteInvitationDetailsWhere id).keepsOthers id := by
  intro s
  simp [Stmt.apply, List.filter_filter]

theorem keepsOthers_deleteParticipants (id : Nat) :
    (Stmt.deleteInvitationParticipantsWhere id).keepsOthers id := by
  intro s
  simp [Stmt.apply, List.filter_filter]

theorem keepsOthers_child (id : Nat) (invitation : Invitation) (st : Stmt)
    (h : st ∈ InvitationService.childStatements id invitation) : st.keepsOthers id := by
  unfold InvitationService.childStatements at h
  rcases List.mem_append.mp h with h1 | h1
  · obtain ⟨d, _, rfl⟩ := List.mem_map.mp h1
    intro s
    simp [Stmt.apply, List.filter_append]
  · obtain ⟨p, _, rfl⟩ := List.mem_map.mp h1
    intro s
    simp [Stmt.apply, List.filter_append]

theorem commit_keepsOthers (id : Nat) (pending : List Stmt) (s : Store)
    (h : ∀ st ∈ pending, st.keepsOthers id) :
    ((commit pending s).invitationDetails.filter fun r => r.InvitationID ≠ id) =
        (s.invitationDetails.filter fun r => r.InvitationID ≠ id) ∧
      ((commit pending s).invitationParticipants.filter fun r => r.InvitationID ≠ id) =
        (s.invitationParticipants.filter fun r => r.InvitationID ≠ id) := by
  induction pending generalizing s with
  | nil => exact ⟨rfl, rfl⟩
  | cons st rest ih =>
    rw [commit_cons]
    have h1 := ih (st.apply s) fun x hx => h x (List.mem_cons_of_mem _ hx)
    have h2 := h st (List.mem_cons_self _ _) s
    exact ⟨h1.1.trans h2.1, h1.2.trans h2.2⟩

theorem Transaction_keepsOthers (id : Nat) (w : World)
    (fc : TxState → TxState × Option String)
    (hp : ∀ st ∈ (fc { world := w, pending := [] }).1.pending, st.keepsOthers id)
    (hs : (fc { world := w, pending := [] }).1.world.store.invitationDetails =
        w.store.invitationDetails ∧
      (fc { world := w, pending := [] }).1.world.store.invitationParticipants =
        w.store.invitationParticipants) :
    ((Transaction w fc).1.store.invitationDetails.filter fun r => r.InvitationID ≠ id) =
        (w.store.invitationDetails.filter fun r => r.InvitationID ≠ id) ∧
      ((Transaction w fc).1.store.invitationParticipants.filter fun r => r.InvitationID ≠ id) =
        (w.store.invitationParticipants.filter fun r => r.InvitationID ≠ id) := by
  rcases Transaction_store w fc with h | h
  · rw [h]
    have := commit_keepsOthers id _ (fc { world := w, pending := [] }).1.world.store hp
    rw [hs.1, hs.2] at this
    exact this
  · rw [h, hs.1, hs.2]
    exact ⟨rfl, rfl⟩

theorem issue_child_tables (w : World) (st : Stmt)
    (h : ∀ s : Store, (st.apply s).invitationDetails = s.invitationDetails ∧
      (st.apply s).invitationParticipants = s.invitationParticipants) :
    (w.issue st).1.store.invitationDetails = w.store.invitationDetails ∧
      (w.issue st).1.store.invitationParticipants = w.store.invitationParticipants := by
  rcases issue_store w st with h1 | h1
  · rw [h1]; exact ⟨rfl, rfl⟩
  · rw [h1]; exact h w.store

theorem UpdateInvitation_keepsOthers (w : World) (id : Nat) (invitation : Invitation) :
    ((InvitationService.UpdateInvitation w id invitation).1.store.invitationDetails.filter
          fun r => r.InvitationID ≠ id) =
        (w.store.invitationDetails.filter fun r => r.InvitationID ≠ id) ∧
      ((InvitationService.UpdateInvitation w id
          invitation).1.store.invitationParticipants.filter fun r => r.InvitationID ≠ id) =
        (w.store.invitationParticipants.filter fun r => r.InvitationID ≠ id) := by
  unfold InvitationService.UpdateInvitation
  apply Transaction_keepsOthers
  · intro st hst
    simp only [InvitationRepository.UpdateInvitation, BaseRepository.UpdateInvitation] at hst
    rcases hi : w.issue (Stmt.updateInvitation id (InvitationService.updateData invitation) 0)
      with ⟨w1, _ | e⟩
    · rw [hi] at hst
      simp only [] at hst
      split_ifs at hst with hany
      · simp only [] at hst
        rw [invitation_children_as_createEach] at hst
        rcases createEach_pending_mem _ _ _ hst with h1 | h1
        · rcases exec_pending_mem _ _ _ h1 with h2 | h2
          · rcases exec_pending_mem _ _ _ h2 with h3 | h3
            · simp at h3
            · rw [h3]; exact keepsOthers_deleteDetails id
          · rw [h2]; exact keepsOthers_deleteParticipants id
        · exact keepsOthers_child id invitation st h1
      · simp at hst
    · rw [hi] at hst
      simp at hst
  · simp only [InvitationRepository.UpdateInvitation, BaseRepository.UpdateInvitation]
    have hc := issue_child_tables w
      (Stmt.updateInvitation id (InvitationService.updateData invitation) 0)
      (fun _ => ⟨rfl, rfl⟩)
    rcases hi : w.issue (Stmt.updateInvitation id (InvitationService.updateData invitation) 0)
      with ⟨w1, _ | e⟩
    · rw [hi] at hc
      simp only [] at hc ⊢
      split_ifs with hany
      · simp only []
        rw [invitation_children_as_createEach, createEach_store, exec_store, exec_store]
        exact hc
      · exact hc
    · rw [hi] at hc
      exact hc

theorem DeleteInvitation_keepsOthers (w : World) (id : Nat) :
    ((InvitationService.DeleteInvitation w id).1.store.invitationDetails.filter
          fun r => r.InvitationID ≠ id) =
        (w.store.invitationDetails.filter fun r => r.InvitationID ≠ id) ∧
      ((InvitationService.DeleteInvitation w id).1.store.invitationParticipants.filter
          fun r => r.InvitationID ≠ id) =
        (w.store.invitationParticipants.filter fun r => r.InvitationID ≠ id) := by
  unfold InvitationService.DeleteInvitation
  apply Transaction_keepsOthers
  · intro st hst
    simp only [InvitationRepository.DeleteInvitation, BaseRepository.DeleteInvitation] at hst
    rcases exec_pending_mem _ _ _ hst with h2 | h2
    · rcases exec_pending_mem _ _ _ h2 with h3 | h3
      · simp at h3
      · rw [h3]; exact keepsOthers_deleteDetails id
    · rw [h2]; exact keepsOthers_deleteParticipants id
  · simp only [InvitationRepository.DeleteInvitation, BaseRepository.DeleteInvitation]
    have hc := issue_child_tables
      (TxState.exec (TxState.exec { world := w, pending := [] }
        (Stmt.deleteInvitationDetailsWhere id)).1
        (Stmt.deleteInvitationParticipantsWhere id)).1.world
      (Stmt.deleteInvitation id) (fun _ => ⟨rfl, rfl⟩)
    rw [exec_store, exec_store] at hc
    exact hc
theorem normalizeQuery_of_settled (k : Consts) (p : ListParams) (e : Bool) (he : e = false)
    (hpage : 0 < p.Page)
    (hpp : ¬(p.PerPage ≤ 0 ∨ p.PerPage > k.MaxPerPage) ∨ p.PerPage = k.DefaultPerPage)
    (hsort : p.SortBy ≠ "" ∨ p.SortBy = k.DefaultSortBy)
    (horder : p.OrderBy ≠ "" ∨ p.OrderBy = k.DefaultOrderBy) :
    normalizeQuery k p e = p := by
  subst he
  obtain ⟨page, perPage, sortBy, orderBy⟩ := p
  simp only at hpage hpp hsort horder
  unfold normalizeQuery
  simp only [Bool.false_eq_true, if_false]
  have h1 : ¬ page ≤ 0 := by omega
  simp only [h1, if_false]
  rcases hpp with hpp | hpp <;> rcases hsort with hsort | hsort <;>
    rcases horder with horder | horder <;> split_ifs <;> simp_all

theorem normalizeQuery_settled (k : Consts) (p : ListParams) (e : Bool) :
    0 < (normalizeQuery k p e).Page ∧
      (¬((normalizeQuery k p e).PerPage ≤ 0 ∨ (normalizeQuery k p e).PerPage > k.MaxPerPage) ∨
        (normalizeQuery k p e).PerPage = k.DefaultPerPage) ∧
      ((normalizeQuery k p e).SortBy ≠ "" ∨ (normalizeQuery k p e).SortBy = k.DefaultSortBy) ∧
      ((normalizeQuery k p e).OrderBy ≠ "" ∨
        (normalizeQuery k p e).OrderBy = k.DefaultOrderBy) := by
  unfold normalizeQuery DefaultListParams DefaultPage
  simp only []
  split_ifs <;> simp_all

theorem DashboardUpdateInvitation_fst (w : World) (id : Nat)
    (req : requests.InvitationRequest) :
    (DashboardInvitationHandler.UpdateInvitation w id req).1 =
      (InvitationService.UpdateInvitation w id (UpdateInvitation_invitation req)).1 := by
  unfold DashboardInvitationHandler.UpdateInvitation
  rcases InvitationService.UpdateInvitation w id (UpdateInvitation_invitation req)
    with ⟨w1, _ | e⟩ <;> rfl

/-! ## Lemmas on replace and delete when the child deletes are carried out -/

/-- When `CardService.UpdateCard(id, card)` returns `nil` and the engine carried out the
two child deletes, the `CardBank` table is its former rows of other cards followed by the
supplied `CardBanks`, and likewise for `CardSocialMedia`. -/
theorem UpdateCard_replaces_of_deletes_done (w : World) (id : Nat) (card : CardEntity)
    (hok : (CardService.UpdateCard w id card).2 = none)
    (hdel : w.faults (w.log.length + 1) = none ∧ w.faults (w.log.length + 2) = none) :
    (CardService.UpdateCard w id card).1.store.cardBanks =
        w.store.cardBanks.filter (fun r => r.CardID ≠ id) ++ card.CardBanks ∧
      (CardService.UpdateCard w id card).1.store.cardSocialMedia =
        w.store.cardSocialMedia.filter (fun r => r.CardID ≠ id) ++ card.CardSocialMedia ∧
      ((∀ b ∈ card.CardBanks, b.CardID = id) →
        (CardService.UpdateCard w id card).1.store.cardBanks.filter (fun r => r.CardID = id) =
          card.CardBanks) ∧
      ((∀ x ∈ card.CardSocialMedia, x.CardID = id) →
        (CardService.UpdateCard w id card).1.store.cardSocialMedia.filter
            (fun r => r.CardID = id) =
          card.CardSocialMedia) ∧
      (card.CardBanks = [] →
        ∀ r ∈ (CardService.UpdateCard w id card).1.store.cardBanks, r.CardID ≠ id) := by
  have key : (CardService.UpdateCard w id card).1.store.cardBanks =
        w.store.cardBanks.filter (fun r => r.CardID ≠ id) ++ card.CardBanks ∧
      (CardService.UpdateCard w id card).1.store.cardSocialMedia =
        w.store.cardSocialMedia.filter (fun r => r.CardID ≠ id) ++ card.CardSocialMedia := by
    unfold CardService.UpdateCard at hok ⊢
    rw [Transaction_snd] at hok
    rw [Transaction_fst_of_ok _ _ hok]
    simp only [CardRepository.UpdateCard, BaseRepository.UpdateCard, World.issue] at hok ⊢
    cases hf : w.faults w.log.length with
    | some e => simp [hf] at hok
    | none =>
      simp only [hf] at hok ⊢
      split_ifs at hok ⊢ with hany
      simp only [] at hok ⊢
      rw [exec_of_noFault _ (Stmt.deleteCardBanksWhere id) (by simpa using hdel.1)] at hok ⊢
      simp only [] at hok ⊢
      rw [exec_of_noFault _ (Stmt.deleteCardSocialMediaWhere id)
        (by simpa [Nat.add_assoc] using hdel.2)] at hok ⊢
      simp only [] at hok ⊢
      rw [← createEach_append] at hok ⊢
      rw [createEach_of_ok _ _ hok]
      constructor <;>
      simp [commit_append, commit_cons, commit_nil, commit_createCardBanks,
        commit_createCardSocialMedia, Stmt.apply]
  refine ⟨key.1, key.2, fun hall => ?_, fun hall => ?_, fun hnil r hr => ?_⟩
  · rw [key.1, List.filter_append, filter_eq_of_filter_ne (fun r : CardBank => r.CardID)]
    simpa [List.filter_eq_self] using hall
  · rw [key.2, List.filter_append, filter_eq_of_filter_ne (fun r : CardSocialMedia => r.CardID)]
    simpa [List.filter_eq_self] using hall
  · rw [key.1, hnil, List.append_nil] at hr
    simpa using (List.mem_filter.mp hr).2

/-- When `InvitationService.UpdateInvitation(id, invitation)` returns `nil` and the engine
carried out the two child deletes, the detail and participant rows of `id` are the
supplied ones stamped with `id`, after the former rows of the other invitations. -/
theorem UpdateInvitation_replaces_of_deletes_done (w : World) (id : Nat) (invitation : Invitation)
    (hok : (InvitationService.UpdateInvitation w id invitation).2 = none)
    (hdel : w.faults (w.log.length + 1) = none ∧ w.faults (w.log.length + 2) = none) :
    (InvitationService.UpdateInvitation w id invitation).1.store.invitationDetails =
        w.store.invitationDetails.filter (fun r => r.InvitationID ≠ id) ++
          invitation.InvitationDetail.toList.map (fun d => { d with InvitationID := id }) ∧
      (InvitationService.UpdateInvitation w id invitation).1.store.invitationParticipants =
        w.store.invitationParticipants.filter (fun r => r.InvitationID ≠ id) ++
          invitation.Participants.map (fun p => { p with InvitationID := id }) ∧
      (InvitationService.UpdateInvitation w id invitation).1.store.invitationDetails.filter
          (fun r => r.InvitationID = id) =
        invitation.InvitationDetail.toList.map (fun d => { d with InvitationID := id }) ∧
      (InvitationService.UpdateInvitation w id invitation).1.store.invitationParticipants.filter
          (fun r => r.InvitationID = id) =
        invitation.Participants.map (fun p => { p with InvitationID := id }) := by
  have key : (InvitationService.UpdateInvitation w id invitation).1.store.invitationDetails =
        w.store.invitationDetails.filter (fun r => r.InvitationID ≠ id) ++
          invitation.InvitationDetail.toList.map (fun d => { d with InvitationID := id }) ∧
      (InvitationService.UpdateInvitation w id invitation).1.store.invitationParticipants =
        w.store.invitationParticipants.filter (fun r => r.InvitationID ≠ id) ++
          invitation.Participants.map (fun p => { p with InvitationID := id }) := by
    unfold InvitationService.UpdateInvitation at hok ⊢
    rw [Transaction_snd] at hok
    rw [Transaction_fst_of_ok _ _ hok]
    simp only [InvitationRepository.UpdateInvitation, BaseRepository.UpdateInvitation,
      World.issue] at hok ⊢
    cases hf : w.faults w.log.length with
    | some e => simp [hf] at hok
    | none =>
      simp only [hf] at hok ⊢
      split_ifs at hok ⊢ with hany
      simp only [] at hok ⊢
      rw [exec_of_noFault _ (Stmt.deleteInvitationDetailsWhere id)
        (by simpa using hdel.1)] at hok ⊢
      simp only [] at hok ⊢
      rw [exec_of_noFault _ (Stmt.deleteInvitationParticipantsWhere id)
        (by simpa [Nat.add_assoc] using hdel.2)] at hok ⊢
      simp only [] at hok ⊢
      rw [invitation_children_as_createEach] at hok ⊢
      rw [createEach_of_ok _ _ hok]
      constructor <;>
      simp [commit_append, commit_cons, commit_nil, commit_createInvitationDetails_map,
        commit_createInvitationParticipants_map, Stmt.apply]
  refine ⟨key.1, key.2, ?_, ?_⟩
  · rw [key.1, List.filter_append,
      filter_eq_of_filter_ne (fun r : InvitationDetail => r.InvitationID)]
    simp [List.filter_eq_self]
  · rw [key.2, List.filter_append,
      filter_eq_of_filter_ne (fun r : InvitationParticipant => r.InvitationID)]
    simp [List.filter_eq_self]

/-- When `InvitationService.DeleteInvitation(id)` returns `nil` and the engine carried out
the two child deletes, no detail, participant or invitation row of `id` remains, and the
statements issued were the two child deletes on `tx` followed by the parent delete. -/
theorem DeleteInvitation_removes_of_deletes_done (w : World) (id : Nat)
    (hok : (InvitationService.DeleteInvitation w id).2 = none)
    (hdel : w.faults w.log.length = none ∧ w.faults (w.log.length + 1) = none) :
    (InvitationService.DeleteInvitation w id).1.store.invitationDetails =
        w.store.invitationDetails.filter (fun r => r.InvitationID ≠ id) ∧
      (InvitationService.DeleteInvitation w id).1.store.invitationParticipants =
        w.store.invitationParticipants.filter (fun r => r.InvitationID ≠ id) ∧
      (InvitationService.DeleteInvitation w id).1.store.invitations =
        w.store.invitations.filter (fun r => r.ID ≠ id) ∧
      (∀ r ∈ (InvitationService.DeleteInvitation w id).1.store.invitationDetails,
        r.InvitationID ≠ id) ∧
      (∀ r ∈ (InvitationService.DeleteInvitation w id).1.store.invitationParticipants,
        r.InvitationID ≠ id) ∧
      (∀ r ∈ (InvitationService.DeleteInvitation w id).1.store.invitations, r.ID ≠ id) ∧
      (InvitationService.DeleteInvitation w id).1.log =
        w.log ++
          [(Via.tx, Stmt.deleteInvitationDetailsWhere id),
            (Via.tx, Stmt.deleteInvitationParticipantsWhere id),
            (Via.repo, Stmt.deleteInvitation id)] := by
  have key : (InvitationService.DeleteInvitation w id).1.store.invitationDetails =
        w.store.invitationDetails.filter (fun r => r.InvitationID ≠ id) ∧
      (InvitationService.DeleteInvitation w id).1.store.invitationParticipants =
        w.store.invitationParticipants.filter (fun r => r.InvitationID ≠ id) ∧
      (InvitationService.DeleteInvitation w id).1.store.invitations =
        w.store.invitations.filter (fun r => r.ID ≠ id) ∧
      (InvitationService.DeleteInvitation w id).1.log =
        w.log ++
          [(Via.tx, Stmt.deleteInvitationDetailsWhere id),
            (Via.tx, Stmt.deleteInvitationParticipantsWhere id),
            (Via.repo, Stmt.deleteInvitation id)] := by
    unfold InvitationService.DeleteInvitation at hok ⊢
    rw [Transaction_snd] at hok
    rw [Transaction_fst_of_ok _ _ hok]
    simp only [] at hok ⊢
    rw [exec_of_noFault _ (Stmt.deleteInvitationDetailsWhere id) hdel.1] at hok ⊢
    simp only [] at hok ⊢
    rw [exec_of_noFault _ (Stmt.deleteInvitationParticipantsWhere id)
      (by simpa using hdel.2)] at hok ⊢
    simp only [InvitationRepository.DeleteInvitation, BaseRepository.DeleteInvitation,
      World.issue] at hok ⊢
    cases hf : w.faults (w.log.length + 2) with
    | some e => simp [hf] at hok
    | none =>
      refine ⟨?_, ?_, ?_, ?_⟩ <;> simp [hf, commit_cons, commit_nil, Stmt.apply]
  refine ⟨key.1, key.2.1, key.2.2.1, fun r hr => ?_, fun r hr => ?_, fun r hr => ?_, key.2.2.2⟩
  · rw [key.1] at hr
    simpa using (List.mem_filter.mp hr).2
  · rw [key.2.1] at hr
    simpa using (List.mem_filter.mp hr).2
  · rw [key.2.2.1] at hr
    simpa using (List.mem_filter.mp hr).2

/-! ## Claims -/

/-- C1: for every outcome of query parsing, the `ListParams` that each of the five list
handlers passes to its service has `page ≥ 1`, `1 ≤ perPage ≤ MaxPerPage`, a non-empty
`sortBy` and a non-empty `orderBy` (for package constants that are usable defaults). -/
theorem list_handlers_pass_resolved_params (k : Consts) (hk : k.Valid)
    (parsed : ListParams) (parseErr : Bool) :
    ∀ h ∈ listHandlers, FullyResolved k.MaxPerPage (h k parsed parseErr) := by
  intro h hh
  rw [mem_listHandlers hh]
  exact normalizeQuery_fullyResolved k hk parsed parseErr

/-- C1 at a concrete input: page `-3`, page size `5000` and empty sort fields, parsed
without error by `ListCards`. -/
theorem list_handlers_pass_resolved_params_witness :
    sampleConsts.Valid ∧ ListCards_params ∈ listHandlers ∧
      FullyResolved 100
        (ListCards_params sampleConsts
          { Page := -3, PerPage := 5000, SortBy := "", OrderBy := "" } false) :=
  ⟨by decide, by simp [listHandlers],
    list_handlers_pass_resolved_params sampleConsts (by decide)
      { Page := -3, PerPage := 5000, SortBy := "", OrderBy := "" } false
      ListCards_params (by simp [listHandlers])⟩

/-- C2: whenever the parsed `page` is `≤ 0`, each list handler passes `page = 1`, the
default page; the other three fields it passes are the ones it would pass for any other
`page` in the same query. -/
theorem nonpositive_page_becomes_default (k : Consts) (parsed : ListParams) (parseErr : Bool)
    (hpage : parsed.Page ≤ 0) :
    ∀ h ∈ listHandlers,
      (h k parsed parseErr).Page = 1 ∧ DefaultPage = 1 ∧
        ∀ page : Int,
          (h k { parsed with Page := page } parseErr).PerPage = (h k parsed parseErr).PerPage ∧
          (h k { parsed with Page := page } parseErr).SortBy = (h k parsed parseErr).SortBy ∧
          (h k { parsed with Page := page } parseErr).OrderBy = (h k parsed parseErr).OrderBy := by
  intro h hh
  rw [mem_listHandlers hh]
  refine ⟨?_, rfl, ?_⟩
  · unfold normalizeQuery DefaultListParams DefaultPage
    simp only []
    split_ifs <;> simp_all
  · intro page
    unfold normalizeQuery DefaultListParams DefaultPage
    simp only []
    split_ifs <;> simp_all

/-- C2 at a concrete input: `page = -3` parsed without error by `ListCards`. -/
theorem nonpositive_page_becomes_default_witness :
    (-3 : Int) ≤ 0 ∧ ListCards_params ∈ listHandlers ∧
      (ListCards_params sampleConsts
        { Page := -3, PerPage := 20, SortBy := "name", OrderBy := "asc" } false).Page = 1 :=
  ⟨by decide, by simp [listHandlers],
    (nonpositive_page_becomes_default sampleConsts
      { Page := -3, PerPage := 20, SortBy := "name", OrderBy := "asc" } false (by decide)
      ListCards_params (by simp [listHandlers])).1⟩

/-- C3: whenever the parsed `perPage` is `≤ 0` or exceeds `MaxPerPage`, each list handler
passes `perPage = DefaultPerPage`; in particular an oversized value is not clamped to
`MaxPerPage` (unless the two constants coincide). -/
theorem out_of_range_perPage_becomes_default (k : Consts) (parsed : ListParams)
    (parseErr : Bool) (hpp : parsed.PerPage ≤ 0 ∨ parsed.PerPage > k.MaxPerPage) :
    ∀ h ∈ listHandlers,
      (h k parsed parseErr).PerPage = k.DefaultPerPage ∧
        (k.DefaultPerPage ≠ k.MaxPerPage → (h k parsed parseErr).PerPage ≠ k.MaxPerPage) := by
  intro h hh
  rw [mem_listHandlers hh]
  have key : (normalizeQuery k parsed parseErr).PerPage = k.DefaultPerPage := by
    unfold normalizeQuery DefaultListParams DefaultPage
    simp only []
    split_ifs <;> simp_all
  exact ⟨key, fun hne => by rw [key]; exact hne⟩

/-- C3 at a concrete input: `perPage = 5000` with `MaxPerPage = 100` and
`DefaultPerPage = 10` gives `10`, not `100`. -/
theorem out_of_range_perPage_becomes_default_witness :
    ((5000 : Int) ≤ 0 ∨ (5000 : Int) > sampleConsts.MaxPerPage) ∧
      ListCards_params ∈ listHandlers ∧
      (ListCards_params sampleConsts
        { Page := 2, PerPage := 5000, SortBy := "name", OrderBy := "asc" } false).PerPage = 10 :=
  ⟨by decide, by simp [listHandlers],
    (out_of_range_perPage_becomes_default sampleConsts
      { Page := 2, PerPage := 5000, SortBy := "name", OrderBy := "asc" } false (by decide)
      ListCards_params (by simp [listHandlers])).1⟩

/-- C4: when query parsing fails, each list handler passes exactly `DefaultListParams()`
to its service, whatever the parser had written into `params` before failing. -/
theorem parse_failure_passes_default_params (k : Consts) (partialParams : ListParams) :
    ∀ h ∈ listHandlers, h k partialParams true = DefaultListParams k := by
  intro h hh
  rw [mem_listHandlers hh]
  unfold normalizeQuery DefaultListParams DefaultPage
  simp only []
  split_ifs <;> simp_all

/-- C4 at a concrete input: the parser failed after filling in `page = 7` and
`sortBy = "name"`. -/
theorem parse_failure_passes_default_params_witness :
    ListCards_params ∈ listHandlers ∧
      ListCards_params sampleConsts
        { Page := 7, PerPage := 0, SortBy := "name", OrderBy := "" } true =
        { Page := 1, PerPage := 10, SortBy := "id", OrderBy := "desc" } :=
  ⟨by simp [listHandlers],
    parse_failure_passes_default_params sampleConsts
      { Page := 7, PerPage := 0, SortBy := "name", OrderBy := "" }
      ListCards_params (by simp [listHandlers])⟩

/-- C5: `CardRepository.GetAllCardsByUserID` puts the supplied `sortBy` into the `Order`
string as it is, also when it is outside the whitelist `id, name, slug, created_at`: for
`sortBy = "password"` the string is `"password asc"`, and for the empty `sortBy` and
`orderBy` that `CardService.GetCardsByUserID` supplies it is `" "`. The entity's default
sort column is not substituted. -/
theorem getAllCardsByUserID_orders_by_supplied_column :
    "password" ∉ CardRepository.allowedSortColumns ∧
      (CardRepository.GetAllCardsByUserID_query 7
        { Page := 1, PerPage := 1, SortBy := "password", OrderBy := "asc" }).order =
        "password asc" ∧
      CardService.GetCardsByUserID_params.SortBy ∉ CardRepository.allowedSortColumns ∧
      (CardRepository.GetAllCardsByUserID_query 7 CardService.GetCardsByUserID_params).order =
        " " := by
  decide

/-- C6, refuted as stated: the `ListParams` that `CardService.GetCardsByUserID` passes to
the repository and the `ListParams{PerPage: 1000}` that the form handlers pass to the
services are not fully resolved, for no value of `MaxPerPage`. -/
theorem call_sites_pass_unresolved_params :
    (¬ ∃ m : Int, FullyResolved m CardService.GetCardsByUserID_params) ∧
      (¬ ∃ m : Int, FullyResolved m ShowCreate_params) := by
  constructor
  · rintro ⟨m, _, _, _, h, _⟩
    exact h rfl
  · rintro ⟨m, h, _⟩
    exact absurd h (by decide)

/-- C6, amended: the form handlers pass exactly `page = 0`, `perPage = 1000` and empty
`sortBy`/`orderBy`, of which only `perPage ≥ 1` is resolved; `CardService.GetCardsByUserID`
passes `page = 1` and `perPage = 1`, which meet `page ≥ 1` and `1 ≤ perPage ≤ MaxPerPage`
for every `MaxPerPage ≥ 1`. -/
theorem call_sites_resolve_page_size_only (maxPerPage : Int) (hmax : 1 ≤ maxPerPage) :
    ShowCreate_params = { Page := 0, PerPage := 1000, SortBy := "", OrderBy := "" } ∧
      1 ≤ ShowCreate_params.PerPage ∧
      CardService.GetCardsByUserID_params.Page = 1 ∧
      CardService.GetCardsByUserID_params.PerPage = 1 ∧
      1 ≤ CardService.GetCardsByUserID_params.Page ∧
      1 ≤ CardService.GetCardsByUserID_params.PerPage ∧
      CardService.GetCardsByUserID_params.PerPage ≤ maxPerPage :=
  ⟨rfl, by decide, rfl, rfl, by decide, by decide, hmax⟩

/-- C6 amended, at `MaxPerPage = 100`. -/
theorem call_sites_resolve_page_size_only_witness :
    (1 : Int) ≤ 100 ∧ CardService.GetCardsByUserID_params.PerPage ≤ 100 :=
  ⟨by decide, (call_sites_resolve_page_size_only 100 (by decide)).2.2.2.2.2.2⟩

/-- C7, refuted as stated: `ListCards` parses `order_by=sideways` without error and
passes `orderBy = "sideways"` on, which is not a sort direction. -/
theorem list_handler_forwards_unknown_direction :
    (ListCards_params sampleConsts
        { Page := 1, PerPage := 10, SortBy := "id", OrderBy := "sideways" } false).OrderBy =
        "sideways" ∧
      "sideways" ∉ sortDirections := by
  decide

/-- C7, amended: the `orderBy` a list handler passes on is the supplied one whenever that
is non-empty, whatever it is; only the empty string (and any value on a parse failure) is
replaced, by `DefaultOrderBy`. -/
theorem orderBy_replaced_only_when_empty (k : Consts) (parsed : ListParams) :
    ∀ h ∈ listHandlers,
      (parsed.OrderBy ≠ "" → (h k parsed false).OrderBy = parsed.OrderBy) ∧
        (parsed.OrderBy = "" → (h k parsed false).OrderBy = k.DefaultOrderBy) ∧
        (h k parsed true).OrderBy = k.DefaultOrderBy := by
  intro h hh
  rw [mem_listHandlers hh]
  refine ⟨fun hne => ?_, fun he => ?_, ?_⟩
  · rw [normalizeQuery_orderBy]; simp [hne]
  · rw [normalizeQuery_orderBy]; simp [he]
  · rw [normalizeQuery_orderBy]; simp

/-- C7 amended, at a concrete input: `ListBanks` forwards `orderBy = "sideways"`. -/
theorem orderBy_replaced_only_when_empty_witness :
    ListBanks_params ∈ listHandlers ∧
      (("sideways" : String) ≠ "" →
        (ListBanks_params sampleConsts
          { Page := 1, PerPage := 10, SortBy := "id", OrderBy := "sideways" } false).OrderBy =
          "sideways") :=
  ⟨by simp [listHandlers],
    (orderBy_replaced_only_when_empty sampleConsts
      { Page := 1, PerPage := 10, SortBy := "id", OrderBy := "sideways" }
      ListBanks_params (by simp [listHandlers])).1⟩

/-- C8: when the repository succeeds, `CardService.GetAllCards` and
`InvitationService.GetAllInvitations` return a result (and no error) that carries the
repository's rows and whose meta has `currentPage = params.Page`,
`perPage = params.PerPage`, `totalItems` the repository's count and
`totalPages = ⌈totalItems / perPage⌉`, which is `0` when `totalItems` is `0`. -/
theorem getAll_meta_on_success {α : Type} (cards : List Card) (invitations : List α)
    (totalCount : Int) (params : ListParams) (hpp : 0 < params.PerPage) :
    (∃ r, CardService.GetAllCards (cards, totalCount, none) params = (some r, none) ∧
        r.Data = cards ∧ r.Meta.CurrentPage = params.Page ∧
        r.Meta.PerPage = params.PerPage ∧ r.Meta.TotalItems = totalCount ∧
        r.Meta.TotalPages = ⌈(totalCount : ℚ) / (params.PerPage : ℚ)⌉ ∧
        (totalCount = 0 → r.Meta.TotalPages = 0)) ∧
      (∃ r, InvitationService.GetAllInvitations (invitations, totalCount, none) params =
          (some r, none) ∧
        r.Data = invitations ∧ r.Meta.CurrentPage = params.Page ∧
        r.Meta.PerPage = params.PerPage ∧ r.Meta.TotalItems = totalCount ∧
        r.Meta.TotalPages = ⌈(totalCount : ℚ) / (params.PerPage : ℚ)⌉ ∧
        (totalCount = 0 → r.Meta.TotalPages = 0)) := by
  refine ⟨⟨_, rfl, rfl, rfl, rfl, rfl, ?_, ?_⟩, ⟨_, rfl, rfl, rfl, rfl, rfl, ?_, ?_⟩⟩
  · exact CalculateTotalPages_eq_ceil _ _ hpp
  · intro h0
    show CalculateTotalPages totalCount params.PerPage = 0
    rw [h0]; exact CalculateTotalPages_zero _
  · exact CalculateTotalPages_eq_ceil _ _ hpp
  · intro h0
    show CalculateTotalPages totalCount params.PerPage = 0
    rw [h0]; exact CalculateTotalPages_zero _

/-- C8 at the specification's example: page 2, page size 5 and 12 items give the meta
`{currentPage 2, perPage 5, totalItems 12, totalPages 3}`. -/
theorem getAll_meta_on_success_witness :
    (0 : Int) < 5 ∧
      (∃ r, CardService.GetAllCards (([] : List Card), 12, none)
          { Page := 2, PerPage := 5, SortBy := "id", OrderBy := "asc" } = (some r, none) ∧
        r.Data = [] ∧ r.Meta.CurrentPage = 2 ∧ r.Meta.PerPage = 5 ∧ r.Meta.TotalItems = 12 ∧
        r.Meta.TotalPages = ⌈((12 : Int) : ℚ) / ((5 : Int) : ℚ)⌉ ∧
        ((12 : Int) = 0 → r.Meta.TotalPages = 0)) ∧
      ((CardService.GetAllCards (([] : List Card), 12, none)
          { Page := 2, PerPage := 5, SortBy := "id", OrderBy := "asc" }).1.map
        (fun r => r.Meta)) =
        some { CurrentPage := 2, PerPage := 5, TotalItems := 12, TotalPages := 3 } :=
  ⟨by decide,
    (getAll_meta_on_success ([] : List Card) ([] : List Card) 12
      { Page := 2, PerPage := 5, SortBy := "id", OrderBy := "asc" } (by decide)).1,
    by decide⟩

/-- C9, refuted as stated: for a user without cards (`totalItems = 0`)
`PanelCardHandler.ListCards` renders `totalPages = 1`, not `0`; and for a user with three
cards it renders `1`, not `⌈3 / 1⌉ = 3`. -/
theorem panel_list_total_pages_not_ceiling :
    (PanelCardHandler.ListCards ([], 0, none)).Result.Meta.TotalItems = 0 ∧
      (PanelCardHandler.ListCards ([], 0, none)).Result.Meta.TotalPages ≠ 0 ∧
      (PanelCardHandler.ListCards ([⟨1, 7, "a", "a"⟩], 3, none)).Result.Meta.TotalItems = 3 ∧
      (PanelCardHandler.ListCards ([⟨1, 7, "a", "a"⟩], 3, none)).Result.Meta.PerPage = 1 ∧
      (PanelCardHandler.ListCards ([⟨1, 7, "a", "a"⟩], 3, none)).Result.Meta.TotalPages ≠ 3 := by
  decide

/-- C9, amended: when the service succeeds, the meta built by
`PanelCardHandler.ListCards` is `{currentPage 1, perPage 1, totalItems = the count,
totalPages 1}` whatever the count; `totalPages` equals `⌈totalItems / perPage⌉` exactly
when the count is `1`. When the service fails the meta is `{1, 1, 0, 0}`. -/
theorem panel_list_total_pages_constant (cards : List Card) (totalCount : Int)
    (err : String) :
    (PanelCardHandler.ListCards (cards, totalCount, none)).Result.Meta =
        { CurrentPage := 1, PerPage := 1, TotalItems := totalCount, TotalPages := 1 } ∧
      ((PanelCardHandler.ListCards (cards, totalCount, none)).Result.Meta.TotalPages =
          ⌈(totalCount : ℚ) /
            (((PanelCardHandler.ListCards (cards, totalCount, none)).Result.Meta.PerPage :
              Int) : ℚ)⌉ ↔
        totalCount = 1) ∧
      (PanelCardHandler.ListCards (cards, totalCount, some err)).Result.Meta =
        { CurrentPage := 1, PerPage := 1, TotalItems := 0, TotalPages := 0 } := by
  refine ⟨rfl, ?_, rfl⟩
  show (1 : Int) = ⌈(totalCount : ℚ) / (((1 : Int) : Int) : ℚ)⌉ ↔ totalCount = 1
  simp [eq_comm]

/-- C10: `CardRepository.GetAllCardsByUserID` builds its statement with
`limit = perPage` and `offset = (page - 1) × perPage` (in 64-bit arithmetic, so exactly
that product whenever it is below `2^63`); for `perPage ≥ 1` and `page ≥ 1` it returns at
most `perPage` cards, each a row of the table owned by the given user, with the count of
all the user's rows beside them; and `CardService.GetCardsByUserID` returns at most one
card. -/
theorem getAllCardsByUserID_page_bounded (e : Engine) (he : e.Sound) (table : List Card)
    (userID : Nat) (params : ListParams) (hpp : 1 ≤ params.PerPage) (hpage : 1 ≤ params.Page) :
    (CardRepository.GetAllCardsByUserID_query userID params).limit = params.PerPage ∧
      (CardRepository.GetAllCardsByUserID_query userID params).offset =
        wrapInt ((params.Page - 1) * params.PerPage) ∧
      ((params.Page - 1) * params.PerPage < 2 ^ 63 →
        (CardRepository.GetAllCardsByUserID_query userID params).offset =
          (params.Page - 1) * params.PerPage) ∧
      ((CardRepository.GetAllCardsByUserID e table userID params).1.length : Int) ≤
        params.PerPage ∧
      (∀ c ∈ (CardRepository.GetAllCardsByUserID e table userID params).1,
        c ∈ table ∧ c.UserID = userID) ∧
      (CardRepository.GetAllCardsByUserID e table userID params).2.1 =
        ((table.filter (fun c => c.UserID = userID)).length : Int) ∧
      (CardService.GetCardsByUserID e table userID).1.length ≤ 1 ∧
      (∀ c ∈ (CardService.GetCardsByUserID e table userID).1,
        c ∈ table ∧ c.UserID = userID) := by
  have hoff : (CardRepository.GetAllCardsByUserID_query userID params).offset =
      wrapInt ((params.Page - 1) * params.PerPage) := wrapInt_mul_wrapInt _ _
  refine ⟨rfl, hoff, ?_, ?_, ?_, rfl, ?_, ?_⟩
  · intro hlt
    rw [hoff]
    exact wrapInt_of_lt _ (mul_nonneg (by omega) (by omega)) hlt
  · exact find_length e table _ hpp
  · intro c hc
    exact find_mem e he table _ c hc
  · have h1 : (CardRepository.GetAllCardsByUserID_query userID
      CardService.GetCardsByUserID_params).limit = 1 := rfl
    have h := find_length e table
      (CardRepository.GetAllCardsByUserID_query userID CardService.GetCardsByUserID_params)
      (le_of_eq h1.symm)
    rw [h1] at h
    have h2 : (CardService.GetCardsByUserID e table userID).1 =
      (e.find table (CardRepository.GetAllCardsByUserID_query userID
        CardService.GetCardsByUserID_params)).1 := rfl
    rw [h2]
    omega
  · intro c hc
    exact find_mem e he table _ c hc

/-- C10 at a concrete input: user `7` owns three of four rows; page 2 with page size 2
is the user's third card alone, with count 3, and `GetCardsByUserID` gives the first
card alone. -/
theorem getAllCardsByUserID_page_bounded_witness :
    sampleEngine.Sound ∧ (1 : Int) ≤ 2 ∧
      ((CardRepository.GetAllCardsByUserID sampleEngine
          [⟨1, 7, "a", "a"⟩, ⟨2, 8, "b", "b"⟩, ⟨3, 7, "c", "c"⟩, ⟨4, 7, "d", "d"⟩] 7
          { Page := 2, PerPage := 2, SortBy := "id", OrderBy := "asc" }).1.length : Int) ≤ 2 ∧
      CardRepository.GetAllCardsByUserID sampleEngine
          [⟨1, 7, "a", "a"⟩, ⟨2, 8, "b", "b"⟩, ⟨3, 7, "c", "c"⟩, ⟨4, 7, "d", "d"⟩] 7
          { Page := 2, PerPage := 2, SortBy := "id", OrderBy := "asc" } =
        ([⟨4, 7, "d", "d"⟩], 3, none) ∧
      CardService.GetCardsByUserID sampleEngine
          [⟨1, 7, "a", "a"⟩, ⟨2, 8, "b", "b"⟩, ⟨3, 7, "c", "c"⟩, ⟨4, 7, "d", "d"⟩] 7 =
        ([⟨1, 7, "a", "a"⟩], 3, none) :=
  ⟨sampleEngine_sound, by decide,
    (getAllCardsByUserID_page_bounded sampleEngine sampleEngine_sound
      [⟨1, 7, "a", "a"⟩, ⟨2, 8, "b", "b"⟩, ⟨3, 7, "c", "c"⟩, ⟨4, 7, "d", "d"⟩] 7
      { Page := 2, PerPage := 2, SortBy := "id", OrderBy := "asc" }
      (by decide) (by decide)).2.2.2.1,
    by decide, by decide⟩

/-- C11: the `Result` that `ListCards` and `ListInvitations` hand to the renderer is never
the nil pointer, and whenever the service returns an error it is the empty result: no
data, `currentPage = params.Page`, `perPage = params.PerPage`, `totalItems = 0`,
`totalPages = 0`. The replacement on error is the shared handler text, whatever the
service; `PanelCardHandler.ListCards` always builds a result, and on error the empty one
for its params. -/
theorem list_handlers_render_nonnil_result (k : Consts) (parsed : ListParams) (parseErr : Bool)
    (repoCards : ListParams → List Card × Int × Option String)
    (repoInvitations : ListParams → List Invitation × Int × Option String)
    (panelCards : List Card) (panelCount : Int) (err : String) :
    (∃ r, ListCards_Result k parsed parseErr repoCards = some r) ∧
      ((CardService.GetAllCards (repoCards (ListCards_params k parsed parseErr))
          (ListCards_params k parsed parseErr)).2 ≠ none →
        ListCards_Result k parsed parseErr repoCards =
          some
            { Data := []
              Meta :=
                { CurrentPage := (ListCards_params k parsed parseErr).Page
                  PerPage := (ListCards_params k parsed parseErr).PerPage
                  TotalItems := 0, TotalPages := 0 } }) ∧
      (∃ r, ListInvitations_Result k parsed parseErr repoInvitations = some r) ∧
      ((InvitationService.GetAllInvitations
          (repoInvitations (ListInvitations_params k parsed parseErr))
          (ListInvitations_params k parsed parseErr)).2 ≠ none →
        ListInvitations_Result k parsed parseErr repoInvitations =
          some
            { Data := []
              Meta :=
                { CurrentPage := (ListInvitations_params k parsed parseErr).Page
                  PerPage := (ListInvitations_params k parsed parseErr).PerPage
                  TotalItems := 0, TotalPages := 0 } }) ∧
      (∀ (params : ListParams) (res : Option (PaginatedResult Card)),
        renderResult params (res, some err) =
          some
            { Data := []
              Meta :=
                { CurrentPage := params.Page, PerPage := params.PerPage, TotalItems := 0,
                  TotalPages := 0 } }) ∧
      (PanelCardHandler.ListCards (panelCards, panelCount, some err)).Result.Data = [] ∧
      (PanelCardHandler.ListCards (panelCards, panelCount, some err)).Result.Meta =
        { CurrentPage := (PanelCardHandler.ListCards (panelCards, panelCount, some err)).Params.Page
          PerPage := (PanelCardHandler.ListCards (panelCards, panelCount, some err)).Params.PerPage
          TotalItems := 0, TotalPages := 0 } := by
  refine ⟨?_, ?_, ?_, ?_, fun _ _ => rfl, rfl, rfl⟩
  · simp only [ListCards_Result]
    rcases repoCards (ListCards_params k parsed parseErr) with ⟨cards, total, _ | e⟩
    · exact ⟨_, rfl⟩
    · exact ⟨_, rfl⟩
  · simp only [ListCards_Result]
    rcases repoCards (ListCards_params k parsed parseErr) with ⟨cards, total, _ | e⟩
    · intro h; exact absurd rfl h
    · intro _; rfl
  · simp only [ListInvitations_Result]
    rcases repoInvitations (ListInvitations_params k parsed parseErr) with ⟨rows, total, _ | e⟩
    · exact ⟨_, rfl⟩
    · exact ⟨_, rfl⟩
  · simp only [ListInvitations_Result]
    rcases repoInvitations (ListInvitations_params k parsed parseErr) with ⟨rows, total, _ | e⟩
    · intro h; exact absurd rfl h
    · intro _; rfl

/-- C12, refuted as stated: when the repository fails, `CardService.GetAllCards` and
`InvitationService.GetAllInvitations` return the nil pointer and an error. -/
theorem getAll_returns_nil_on_repository_error :
    CardService.GetAllCards ([], 0, some "connection refused")
        { Page := 1, PerPage := 10, SortBy := "id", OrderBy := "asc" } =
        (none, some "Kartlar getirilirken bir hata oluştu") ∧
      InvitationService.GetAllInvitations (([] : List Invitation), 0, some "connection refused")
        { Page := 1, PerPage := 10, SortBy := "id", OrderBy := "asc" } =
        (none, some "Davetiyeler getirilirken bir hata oluştu") :=
  ⟨rfl, rfl⟩

/-- C12, amended: when the repository fails, both services return the nil pointer
together with a new error that carries a fixed message, whatever rows, count and error
the repository returned; the repository's error itself is not returned. The empty result
is put in its place by the list handler. -/
theorem getAll_propagates_fixed_error {α : Type} (cards : List Card) (invitations : List α)
    (totalCount : Int) (repoErr : String) (params : ListParams) :
    CardService.GetAllCards (cards, totalCount, some repoErr) params =
        (none, some "Kartlar getirilirken bir hata oluştu") ∧
      InvitationService.GetAllInvitations (invitations, totalCount, some repoErr) params =
        (none, some "Davetiyeler getirilirken bir hata oluştu") ∧
      renderResult params (CardService.GetAllCards (cards, totalCount, some repoErr) params) =
        some
          { Data := []
            Meta :=
              { CurrentPage := params.Page, PerPage := params.PerPage, TotalItems := 0,
                TotalPages := 0 } } :=
  ⟨rfl, rfl, rfl⟩

/-- C13: for the card that `DashboardCardHandler.CreateCard` builds from a request with two
banks and one social-media account, `CardService.CreateCard` succeeds on an empty store,
the new card gets the generated id `1`, and the three child rows are inserted with
`CardID = 0`, the value the handler put in them: the service does not stamp the new id. -/
theorem createCard_inserts_children_with_supplied_cardID :
    (DashboardCardHandler.CreateCard (worldOf emptyStore noFaults) sampleCardRequest).2 = 302 ∧
      (DashboardCardHandler.CreateCard (worldOf emptyStore noFaults)
        sampleCardRequest).1.store.cards =
        [{ ID := 1, UserID := 7, Name := "card", Slug := "card" }] ∧
      (DashboardCardHandler.CreateCard (worldOf emptyStore noFaults)
        sampleCardRequest).1.store.cardBanks =
        [{ CardID := 0, BankID := 10, IBAN := "" }, { CardID := 0, BankID := 11, IBAN := "" }] ∧
      (DashboardCardHandler.CreateCard (worldOf emptyStore noFaults)
        sampleCardRequest).1.store.cardSocialMedia =
        [{ CardID := 0, SocialMediaID := 5, URL := "" }] := by
  decide

/-- C14: after `InvitationService.CreateInvitation` returns `nil`, exactly one invitation
row was added, with the generated id; the detail row (when a detail was supplied) and one
participant row for every supplied participant were added, in order, each with
`InvitationID` equal to that id whatever the caller had put there; nothing else was added
to the two child tables. -/
theorem createInvitation_children_reference_new_id (w : World) (invitation : Invitation)
    (hok : (InvitationService.CreateInvitation w invitation).2 = none) :
    ∃ row : InvitationRow,
      row.ID = (if invitation.ID = 0 then w.store.nextID else invitation.ID) ∧
      (InvitationService.CreateInvitation w invitation).1.store.invitations =
        w.store.invitations ++ [row] ∧
      (InvitationService.CreateInvitation w invitation).1.store.invitationDetails =
        w.store.invitationDetails ++
          invitation.InvitationDetail.toList.map (fun d => { d with InvitationID := row.ID }) ∧
      (InvitationService.CreateInvitation w invitation).1.store.invitationParticipants =
        w.store.invitationParticipants ++
          invitation.Participants.map (fun p => { p with InvitationID := row.ID }) ∧
      (InvitationService.CreateInvitation w invitation).1.store.invitationParticipants.length =
        w.store.invitationParticipants.length + invitation.Participants.length := by
  unfold InvitationService.CreateInvitation at hok ⊢
  rw [Transaction_snd] at hok
  rw [Transaction_fst_of_ok _ _ hok]
  simp only [InvitationRepository.CreateInvitation, BaseRepository.CreateInvitation,
    World.issue] at hok ⊢
  cases hf : w.faults w.log.length with
  | some e => simp [hf] at hok
  | none =>
    simp only [hf] at hok ⊢
    rw [invitation_children_as_createEach] at hok ⊢
    rw [createEach_of_ok _ _ hok]
    refine ⟨{ invitation.toInvitationRow with
      ID := if invitation.ID = 0 then w.store.nextID else invitation.ID }, rfl, ?_, ?_, ?_, ?_⟩ <;>
    simp [commit_append, commit_createInvitationDetails_map,
      commit_createInvitationParticipants_map, Stmt.apply]

/-- C14 at a concrete input: an invitation with a detail stamped `99` and participants
stamped `0` and `77`, created on an empty store, is saved with id `1` and its three
children carry `InvitationID = 1`. -/
theorem createInvitation_children_reference_new_id_witness :
    (InvitationService.CreateInvitation (worldOf emptyStore noFaults) sampleInvitation).2 =
        none ∧
      (∃ row : InvitationRow,
        row.ID = (if sampleInvitation.ID = 0 then (worldOf emptyStore noFaults).store.nextID
          else sampleInvitation.ID) ∧
        (InvitationService.CreateInvitation (worldOf emptyStore noFaults)
          sampleInvitation).1.store.invitations =
          (worldOf emptyStore noFaults).store.invitations ++ [row] ∧
        (InvitationService.CreateInvitation (worldOf emptyStore noFaults)
          sampleInvitation).1.store.invitationDetails =
          (worldOf emptyStore noFaults).store.invitationDetails ++
            sampleInvitation.InvitationDetail.toList.map
              (fun d => { d with InvitationID := row.ID }) ∧
        (InvitationService.CreateInvitation (worldOf emptyStore noFaults)
          sampleInvitation).1.store.invitationParticipants =
          (worldOf emptyStore noFaults).store.invitationParticipants ++
            sampleInvitation.Participants.map (fun p => { p with InvitationID := row.ID }) ∧
        (InvitationService.CreateInvitation (worldOf emptyStore noFaults)
          sampleInvitation).1.store.invitationParticipants.length =
          (worldOf emptyStore noFaults).store.invitationParticipants.length +
            sampleInvitation.Participants.length) ∧
      (InvitationService.CreateInvitation (worldOf emptyStore noFaults)
        sampleInvitation).1.store.invitationDetails =
        [{ InvitationID := 1, Title := "dt", Person := "dp" }] ∧
      (InvitationService.CreateInvitation (worldOf emptyStore noFaults)
        sampleInvitation).1.store.invitationParticipants =
        [{ InvitationID := 1, Title := "n1", PhoneNumber := "5", GuestCount := 1 },
          { InvitationID := 1, Title := "n2", PhoneNumber := "6", GuestCount := 2 }] :=
  ⟨by decide,
    createInvitation_children_reference_new_id (worldOf emptyStore noFaults) sampleInvitation
      (by decide),
    by decide, by decide⟩

/-- C15: on a context that carries no transaction, when the first child insert fails
`CardService.CreateCard` and `InvitationService.CreateInvitation` return the error and the
child tables are as before, but the parent row stays: it was inserted through the
repository, outside `tx`, and the rollback of `tx` does not reach it. -/
theorem create_keeps_parent_when_child_insert_fails :
    (CardService.CreateCard (worldOf emptyStore (failAt 1))
        (CreateCard_card sampleCardRequest)).2 = some "storage error" ∧
      (CardService.CreateCard (worldOf emptyStore (failAt 1))
        (CreateCard_card sampleCardRequest)).1.store.cards =
        [{ ID := 1, UserID := 7, Name := "card", Slug := "card" }] ∧
      (CardService.CreateCard (worldOf emptyStore (failAt 1))
        (CreateCard_card sampleCardRequest)).1.store.cardBanks = [] ∧
      (CardService.CreateCard (worldOf emptyStore (failAt 1))
        (CreateCard_card sampleCardRequest)).1.log =
        [(Via.repo, Stmt.createCard { ID := 1, UserID := 7, Name := "card", Slug := "card" }),
          (Via.tx, Stmt.createCardBank { CardID := 0, BankID := 10, IBAN := "" })] ∧
      (InvitationService.CreateInvitation (worldOf emptyStore (failAt 1))
        sampleInvitation).2 = some "storage error" ∧
      (InvitationService.CreateInvitation (worldOf emptyStore (failAt 1))
        sampleInvitation).1.store.invitations =
        [{ ID := 1, UserID := 7, CategoryID := 2, InvitationKey := "key", Title := "title" }] ∧
      (InvitationService.CreateInvitation (worldOf emptyStore (failAt 1))
        sampleInvitation).1.store.invitationDetails = [] ∧
      (CardService.CreateCard (worldOf emptyStore (failAt 0))
        (CreateCard_card sampleCardRequest)).1.store = emptyStore := by
  decide

/-- C16: when the engine fails the delete of the existing `CardBank` rows,
`CardService.UpdateCard(1, card)` with no `CardBanks` supplied still returns `nil` and
commits: card `1`, which had three bank associations, keeps all three. And since the
supplied rows are inserted as they are, a supplied row that carries `CardID = 2` is not
among the rows of card `1` after an update in which nothing fails. -/
theorem updateCard_keeps_former_rows_when_delete_fails :
    (CardService.UpdateCard (worldOf sampleCardStore (failAt 1)) 1
        { sampleCardUpdate with CardBanks := [] }).2 = none ∧
      (sampleCardStore.cardBanks.filter fun r => r.CardID = 1).length = 3 ∧
      ((CardService.UpdateCard (worldOf sampleCardStore (failAt 1)) 1
          { sampleCardUpdate with CardBanks := [] }).1.store.cardBanks.filter
          fun r => r.CardID = 1) =
        [{ CardID := 1, BankID := 10, IBAN := "x" }, { CardID := 1, BankID := 11, IBAN := "y" },
          { CardID := 1, BankID := 12, IBAN := "" }] ∧
      (CardService.UpdateCard (worldOf sampleCardStore (failAt 1)) 1
          { sampleCardUpdate with CardBanks := [] }).1.log =
        [(Via.repo,
            Stmt.updateCard 1
              (CardService.updateData { sampleCardUpdate with CardBanks := [] }) 0),
          (Via.tx, Stmt.deleteCardBanksWhere 1), (Via.tx, Stmt.deleteCardSocialMediaWhere 1)] ∧
      (CardService.UpdateCard (worldOf sampleCardStore noFaults) 1
        { sampleCardUpdate with
          CardBanks := [{ CardID := 2, BankID := 20, IBAN := "" }] }).2 = none ∧
      ((CardService.UpdateCard (worldOf sampleCardStore noFaults) 1
          { sampleCardUpdate with
            CardBanks := [{ CardID := 2, BankID := 20, IBAN := "" }] }).1.store.cardBanks.filter
          fun r => r.CardID = 1) = [] := by
  decide

/-- C17: when the engine fails the delete of the existing participant rows,
`InvitationService.UpdateInvitation(4, invitation)` still returns `nil` and commits: the
two former participants of invitation `4` survive beside the two supplied ones, so the
participant rows of `4` are not the supplied participants. -/
theorem updateInvitation_keeps_former_rows_when_delete_fails :
    (InvitationService.UpdateInvitation (worldOf sampleInvitationStore (failAt 2)) 4
        sampleInvitation).2 = none ∧
      ((InvitationService.UpdateInvitation (worldOf sampleInvitationStore (failAt 2)) 4
          sampleInvitation).1.store.invitationParticipants.filter
          fun r => r.InvitationID = 4) =
        [{ InvitationID := 4, Title := "p1", PhoneNumber := "1", GuestCount := 1 },
          { InvitationID := 4, Title := "p2", PhoneNumber := "3", GuestCount := 3 },
          { InvitationID := 4, Title := "n1", PhoneNumber := "5", GuestCount := 1 },
          { InvitationID := 4, Title := "n2", PhoneNumber := "6", GuestCount := 2 }] ∧
      ((InvitationService.UpdateInvitation (worldOf sampleInvitationStore (failAt 2)) 4
          sampleInvitation).1.store.invitationParticipants.filter
          fun r => r.InvitationID = 4) ≠
        sampleInvitation.Participants.map (fun p => { p with InvitationID := 4 }) ∧
      ((InvitationService.UpdateInvitation (worldOf sampleInvitationStore (failAt 2)) 4
          sampleInvitation).1.store.invitationDetails.filter
          fun r => r.InvitationID = 4) =
        [{ InvitationID := 4, Title := "dt", Person := "dp" }] := by
  decide

/-- C18: `CardService.UpdateCard` and `InvitationService.UpdateInvitation` do not turn
every failed step into an error that commits nothing. When the delete of the existing
`CardBank` rows fails, `UpdateCard` returns `nil` and commits: the former rows survive
beside the new one (likewise the former detail in `UpdateInvitation`). When a child insert
fails, `UpdateCard` returns the error, but the patch of the card row, made through the
repository outside `tx`, stays. -/
theorem update_swallows_delete_failure_and_keeps_patch :
    (CardService.UpdateCard (worldOf sampleCardStore (failAt 1)) 1 sampleCardUpdate).2 = none ∧
      (CardService.UpdateCard (worldOf sampleCardStore (failAt 1)) 1
        sampleCardUpdate).1.store.cardBanks =
        sampleCardStore.cardBanks ++ [{ CardID := 1, BankID := 20, IBAN := "" }] ∧
      (InvitationService.UpdateInvitation (worldOf sampleInvitationStore (failAt 1)) 4
        sampleInvitation).2 = none ∧
      (InvitationService.UpdateInvitation (worldOf sampleInvitationStore (failAt 1)) 4
        sampleInvitation).1.store.invitationDetails =
        [{ InvitationID := 4, Title := "d", Person := "p" },
          { InvitationID := 4, Title := "dt", Person := "dp" }] ∧
      (CardService.UpdateCard (worldOf sampleCardStore (failAt 3)) 1 sampleCardUpdate).2 =
        some "storage error" ∧
      (CardService.UpdateCard (worldOf sampleCardStore (failAt 3)) 1
        sampleCardUpdate).1.store.cards =
        [{ ID := 1, UserID := 7, Name := "renamed", Slug := "a" }] ∧
      (CardService.UpdateCard (worldOf sampleCardStore (failAt 3)) 1
        sampleCardUpdate).1.store.cards ≠ sampleCardStore.cards := by
  decide

/-- C19: `CardService.DeleteCard(1)` succeeds by issuing the one statement that deletes
the card row, through the repository and outside any transaction; the card row is gone,
and the three `CardBank` rows and the `CardSocialMedia` row with `card_id = 1` remain. -/
theorem deleteCard_leaves_child_rows :
    (CardService.DeleteCard (worldOf sampleCardStore noFaults) 1).2 = none ∧
      (CardService.DeleteCard (worldOf sampleCardStore noFaults) 1).1.store.cards = [] ∧
      (CardService.DeleteCard (worldOf sampleCardStore noFaults) 1).1.store.cardBanks =
        sampleCardStore.cardBanks ∧
      ((CardService.DeleteCard (worldOf sampleCardStore noFaults) 1).1.store.cardBanks.filter
        (fun r => r.CardID = 1)).length = 3 ∧
      (CardService.DeleteCard (worldOf sampleCardStore noFaults) 1).1.store.cardSocialMedia =
        [{ CardID := 1, SocialMediaID := 5, URL := "u" }] ∧
      (CardService.DeleteCard (worldOf sampleCardStore noFaults) 1).1.log =
        [(Via.repo, Stmt.deleteCard 1)] := by
  decide

/-- C20: when the engine fails the delete of the detail rows,
`InvitationService.DeleteInvitation(4)` still returns `nil` and commits: the invitation
row is gone and its detail row remains; when it fails the delete of the participant rows,
the two participants of invitation `4` remain. In both executions the two child deletes
were issued before the parent delete. -/
theorem deleteInvitation_keeps_children_when_delete_fails :
    (InvitationService.DeleteInvitation (worldOf sampleInvitationStore (failAt 0)) 4).2 = none ∧
      (InvitationService.DeleteInvitation (worldOf sampleInvitationStore (failAt 0))
        4).1.store.invitations = [] ∧
      (InvitationService.DeleteInvitation (worldOf sampleInvitationStore (failAt 0))
        4).1.store.invitationDetails = [{ InvitationID := 4, Title := "d", Person := "p" }] ∧
      (InvitationService.DeleteInvitation (worldOf sampleInvitationStore (failAt 1)) 4).2 = none ∧
      (InvitationService.DeleteInvitation (worldOf sampleInvitationStore (failAt 1))
        4).1.store.invitations = [] ∧
      ((InvitationService.DeleteInvitation (worldOf sampleInvitationStore (failAt 1))
          4).1.store.invitationParticipants.filter fun r => r.InvitationID = 4) =
        [{ InvitationID := 4, Title := "p1", PhoneNumber := "1", GuestCount := 1 },
          { InvitationID := 4, Title := "p2", PhoneNumber := "3", GuestCount := 3 }] ∧
      (InvitationService.DeleteInvitation (worldOf sampleInvitationStore (failAt 0)) 4).1.log =
        [(Via.tx, Stmt.deleteInvitationDetailsWhere 4),
          (Via.tx, Stmt.deleteInvitationParticipantsWhere 4),
          (Via.repo, Stmt.deleteInvitation 4)] := by
  decide

/-- C21: when the form is complete, `UpdateCategory` calls the service with
`updatedBy = 0` if nothing is stored under `"user_id"` or the stored value is not a
`uint`, and with exactly the stored `uint` otherwise; the missing id never makes the
handler fail: the response is the redirect whenever the service returns no error, and
`500` only when the service does. -/
theorem updateCategory_passes_stored_uint_or_zero (locals : String → Option LocalValue)
    (categoryID : Nat) (req : CategoryForm)
    (svc : Nat → InvitationCategory → Nat → Option String)
    (hreq : req.Name ≠ "" ∧ req.Icon ≠ "" ∧ req.Template ≠ "") :
    ∃ data updatedBy,
      (DashboardInvitationCategoryHandler.UpdateCategory locals categoryID req svc).2 =
        some (categoryID, data, updatedBy) ∧
      (locals "user_id" = none → updatedBy = 0) ∧
      (∀ t, locals "user_id" = some (LocalValue.other t) → updatedBy = 0) ∧
      (∀ n, locals "user_id" = some (LocalValue.uint n) → updatedBy = n) ∧
      (svc categoryID data updatedBy = none →
        (DashboardInvitationCategoryHandler.UpdateCategory locals categoryID req svc).1 = 302) ∧
      ((DashboardInvitationCategoryHandler.UpdateCategory locals categoryID req svc).1 = 500 →
        svc categoryID data updatedBy ≠ none) := by
  obtain ⟨h1, h2, h3⟩ := hreq
  unfold DashboardInvitationCategoryHandler.UpdateCategory
  rw [if_neg (by simp [h1, h2, h3])]
  simp only []
  rcases hl : locals "user_id" with _ | (n | t)
  · simp only []
    rcases hs : svc categoryID _ 0 with _ | e
    · exact ⟨_, 0, rfl, fun _ => rfl, fun _ h => rfl, fun n h => by simp at h,
        fun _ => rfl, fun h => by simp at h⟩
    · exact ⟨_, 0, rfl, fun _ => rfl, fun _ h => rfl, fun n h => by simp at h,
        fun h => by rw [hs] at h; simp at h, fun _ => by rw [hs]; simp⟩
  · simp only []
    rcases hs : svc categoryID _ n with _ | e
    · exact ⟨_, n, rfl, fun h => by simp at h, fun _ h => by simp at h,
        fun m h => by simpa using h, fun _ => rfl, fun h => by simp at h⟩
    · exact ⟨_, n, rfl, fun h => by simp at h, fun _ h => by simp at h,
        fun m h => by simpa using h, fun h => by rw [hs] at h; simp at h,
        fun _ => by rw [hs]; simp⟩
  · simp only []
    rcases hs : svc categoryID _ 0 with _ | e
    · exact ⟨_, 0, rfl, fun _ => rfl, fun _ h => rfl, fun n h => by simp at h,
        fun _ => rfl, fun h => by simp at h⟩
    · exact ⟨_, 0, rfl, fun _ => rfl, fun _ h => rfl, fun n h => by simp at h,
        fun h => by rw [hs] at h; simp at h, fun _ => by rw [hs]; simp⟩

/-- C21 at concrete inputs: with nothing stored the service is called with `0` and the
handler redirects; with the `uint` `42` stored under `"user_id"` it is called with `42`;
with a text stored there it is called with `0`. -/
theorem updateCategory_passes_stored_uint_or_zero_witness :
    (("n" : String) ≠ "" ∧ ("i" : String) ≠ "" ∧ ("t" : String) ≠ "") ∧
      (∃ data updatedBy,
        (DashboardInvitationCategoryHandler.UpdateCategory (fun _ => none) 3
          { Name := "n", Icon := "i", Template := "t", IsActive := "true" }
          (fun _ _ _ => none)).2 = some (3, data, updatedBy) ∧
        ((fun _ => none : String → Option LocalValue) "user_id" = none → updatedBy = 0) ∧
        (∀ t, (fun _ => none : String → Option LocalValue) "user_id" =
          some (LocalValue.other t) → updatedBy = 0) ∧
        (∀ n, (fun _ => none : String → Option LocalValue) "user_id" =
          some (LocalValue.uint n) → updatedBy = n) ∧
        ((fun _ _ _ => none : Nat → InvitationCategory → Nat → Option String) 3 data
            updatedBy = none →
          (DashboardInvitationCategoryHandler.UpdateCategory (fun _ => none) 3
            { Name := "n", Icon := "i", Template := "t", IsActive := "true" }
            (fun _ _ _ => none)).1 = 302) ∧
        ((DashboardInvitationCategoryHandler.UpdateCategory (fun _ => none) 3
            { Name := "n", Icon := "i", Template := "t", IsActive := "true" }
            (fun _ _ _ => none)).1 = 500 →
          (fun _ _ _ => none : Nat → InvitationCategory → Nat → Option String) 3 data
            updatedBy ≠ none)) ∧
      DashboardInvitationCategoryHandler.UpdateCategory (fun _ => none) 3
          { Name := "n", Icon := "i", Template := "t", IsActive := "true" }
          (fun _ _ _ => none) =
        (302, some (3, { Name := "n", Icon := "i", Template := "t", IsActive := true }, 0)) ∧
      DashboardInvitationCategoryHandler.UpdateCategory
          (fun key => if key = "user_id" then some (LocalValue.uint 42) else none) 3
          { Name := "n", Icon := "i", Template := "t", IsActive := "true" }
          (fun _ _ _ => none) =
        (302, some (3, { Name := "n", Icon := "i", Template := "t", IsActive := true }, 42)) ∧
      DashboardInvitationCategoryHandler.UpdateCategory
          (fun key => if key = "user_id" then some (LocalValue.other "42") else none) 3
          { Name := "n", Icon := "i", Template := "t", IsActive := "true" }
          (fun _ _ _ => none) =
        (302, some (3, { Name := "n", Icon := "i", Template := "t", IsActive := true }, 0)) :=
  ⟨by decide,
    updateCategory_passes_stored_uint_or_zero (fun _ => none) 3
      { Name := "n", Icon := "i", Template := "t", IsActive := "true" } (fun _ _ _ => none)
      (by decide),
    by decide, by decide, by decide⟩

/-- C22: `PanelCardHandler.UpdateCard` runs for the acting user `7`, who owns card `1`,
and the update statement that reaches the repository carries `updatedBy = 0`, not `7`;
`InvitationService.UpdateInvitation` likewise stamps `0`. -/
theorem update_services_stamp_zero :
    localUint (localsWithUserID 7 "userID") = 7 ∧
      (PanelCardHandler.UpdateCard (worldOf sampleCardStore noFaults) 1 (localsWithUserID 7)
        (some sampleLoadedCard) (some sampleCardRequest)).2 = PanelOutcome.redirected ∧
      ((PanelCardHandler.UpdateCard (worldOf sampleCardStore noFaults) 1 (localsWithUserID 7)
        (some sampleLoadedCard) (some sampleCardRequest)).1.log.filterMap
          fun entry => entry.2.updatedBy) = [0] ∧
      ((InvitationService.UpdateInvitation (worldOf sampleInvitationStore noFaults) 4
        sampleInvitation).1.log.filterMap fun entry => entry.2.updatedBy) = [0] := by
  decide

/-- C23, refuted as stated: when the engine fails the first `CardBank` insert with the
error `"pq: duplicate key"`, `CardService.CreateCard` returns exactly that error, and so
does `CardService.UpdateCard`. -/
theorem card_writes_return_storage_error_verbatim :
    (CardService.CreateCard (worldOf emptyStore (failWith 1 "pq: duplicate key"))
        (CreateCard_card sampleCardRequest)).2 = some "pq: duplicate key" ∧
      (CardService.CreateCard (worldOf emptyStore (failWith 1 "pq: duplicate key"))
        (CreateCard_card sampleCardRequest)).1.log.getLast? =
        some (Via.tx, Stmt.createCardBank { CardID := 0, BankID := 10, IBAN := "" }) ∧
      (CardService.UpdateCard (worldOf sampleCardStore (failWith 3 "pq: duplicate key")) 1
        sampleCardUpdate).2 = some "pq: duplicate key" ∧
      (CardService.UpdateCard (worldOf sampleCardStore (failWith 3 "pq: duplicate key")) 1
        sampleCardUpdate).1.log.getLast? =
        some (Via.tx, Stmt.createCardBank { CardID := 1, BankID := 20, IBAN := "" }) := by
  decide

/-- C23, amended: every error that `CardService.CreateCard` returns is, unchanged, an
error the storage engine gave to one of the statements, and every error that
`CardService.UpdateCard` returns is such an error or the repository's `NotFound`; the
services do not wrap it. `DashboardCardHandler.CreateCard` answers any of them with
status `500`. -/
theorem card_writes_return_engine_errors (w : World) (id : Nat) (card : CardEntity)
    (req : requests.CardRequest) (e : String) :
    ((CardService.CreateCard w card).2 = some e → ∃ n, w.faults n = some e) ∧
      ((CardService.UpdateCard w id card).2 = some e →
        e = "record not found" ∨ ∃ n, w.faults n = some e) ∧
      ((CardService.CreateCard w (CreateCard_card req)).2 = some e →
        (DashboardCardHandler.CreateCard w req).2 = 500) := by
  refine ⟨CreateCard_err w card e, UpdateCard_err w id card e, fun h => ?_⟩
  unfold DashboardCardHandler.CreateCard
  rcases hr : CardService.CreateCard w (CreateCard_card req) with ⟨w1, _ | e'⟩
  · rw [hr] at h; simp at h
  · rfl

/-- C24: in every execution, whatever the engine fails, the statements that
`CreateCard`, `UpdateCard`, `CreateInvitation` and `UpdateInvitation` issue are an initial
segment, of length at least one, of their statements in program order: the parent insert
(or patch) first, then for an update the two child deletes, then the child inserts. So a
child insert is never issued before the parent statement, nor in an update before the
two deletes. -/
theorem aggregate_writes_issue_in_program_order (w : World) (id : Nat) (card : CardEntity)
    (invitation : Invitation) :
    (∃ k, 1 ≤ k ∧
        (CardService.CreateCard w card).1.log =
          w.log ++ (CardService.createStatements w card).take k) ∧
      (∃ k, 1 ≤ k ∧
        (InvitationService.CreateInvitation w invitation).1.log =
          w.log ++ (InvitationService.createStatements w invitation).take k) ∧
      (∃ k, 1 ≤ k ∧
        (CardService.UpdateCard w id card).1.log =
          w.log ++ (CardService.updateStatements id card).take k) ∧
      (∃ k, 1 ≤ k ∧
        (InvitationService.UpdateInvitation w id invitation).1.log =
          w.log ++ (InvitationService.updateStatements id invitation).take k) :=
  ⟨CreateCard_log w card, CreateInvitation_log w invitation, UpdateCard_log w id card,
    UpdateInvitation_log w id invitation⟩

/-- C25: the patch of `CardService.UpdateCard` has exactly the nine keys `name`, `slug`,
`user_id`, `photo`, `telephone`, `email`, `location`, `website`, `is_active`, each once and
each with the supplied card's field as its value; `id` and `created_at` are not among
them; and in every execution the first statement of the call hands this patch to the
repository, the only statement that goes through the repository. -/
theorem updateCard_patch_has_nine_keys (w : World) (id : Nat) (card : CardEntity) :
    (CardService.updateData card).map Prod.fst =
        ["name", "slug", "user_id", "photo", "telephone", "email", "location", "website",
          "is_active"] ∧
      ((CardService.updateData card).map Prod.fst).Nodup ∧
      (CardService.updateData card).lookup "name" = some (Value.str card.Name) ∧
      (CardService.updateData card).lookup "slug" = some (Value.str card.Slug) ∧
      (CardService.updateData card).lookup "user_id" = some (Value.uint card.UserID) ∧
      (CardService.updateData card).lookup "photo" = some (Value.str card.Photo) ∧
      (CardService.updateData card).lookup "telephone" = some (Value.str card.Telephone) ∧
      (CardService.updateData card).lookup "email" = some (Value.str card.Email) ∧
      (CardService.updateData card).lookup "location" = some (Value.str card.Location) ∧
      (CardService.updateData card).lookup "website" = some (Value.str card.Website) ∧
      (CardService.updateData card).lookup "is_active" = some (Value.bool card.IsActive) ∧
      (CardService.updateData card).lookup "id" = none ∧
      (CardService.updateData card).lookup "created_at" = none ∧
      ((CardService.UpdateCard w id card).1.log.drop w.log.length).head? =
        some (Via.repo, Stmt.updateCard id (CardService.updateData card) 0) ∧
      (∀ entry ∈ (CardService.UpdateCard w id card).1.log.drop w.log.length,
        entry.1 = Via.repo →
          entry = (Via.repo, Stmt.updateCard id (CardService.updateData card) 0)) := by
  obtain ⟨k, hk, hlog⟩ := UpdateCard_log w id card
  refine ⟨rfl, ?_, rfl, rfl, rfl, rfl, rfl, rfl, rfl, rfl, rfl, rfl, rfl, ?_, ?_⟩
  · rw [show (CardService.updateData card).map Prod.fst =
      ["name", "slug", "user_id", "photo", "telephone", "email", "location", "website",
        "is_active"] from rfl]
    decide
  · rw [hlog, List.drop_left]
    obtain ⟨k', rfl⟩ : ∃ k', k = k' + 1 := ⟨k - 1, by omega⟩
    simp [CardService.updateStatements]
  · intro entry hentry hvia
    rw [hlog, List.drop_left] at hentry
    have hmem := List.mem_of_mem_take hentry
    simp only [CardService.updateStatements, List.mem_cons, List.mem_map] at hmem
    rcases hmem with h | h | h | ⟨st, _, h⟩
    · exact h
    · rw [h] at hvia; exact absurd hvia (by simp)
    · rw [h] at hvia; exact absurd hvia (by simp)
    · rw [← h] at hvia; exact absurd hvia (by simp)

/-- C26: the normalisation of every list handler is idempotent (applied to its own
result as a successfully parsed query it changes nothing), and it passes on unchanged
every query with `page ≥ 1`, `1 ≤ perPage ≤ MaxPerPage` and non-empty `sortBy` and
`orderBy`. -/
theorem normalisation_idempotent_and_identity_on_valid (k : Consts) :
    ∀ h ∈ listHandlers,
      (∀ (p : ListParams) (e : Bool), h k (h k p e) false = h k p e) ∧
        (∀ p : ListParams, FullyResolved k.MaxPerPage p → h k p false = p) := by
  intro h hh
  rw [mem_listHandlers hh]
  refine ⟨fun p e => ?_, fun p hp => ?_⟩
  · obtain ⟨h1, h2, h3, h4⟩ := normalizeQuery_settled k p e
    exact normalizeQuery_of_settled k _ false rfl h1 h2 h3 h4
  · obtain ⟨h1, h2, h3, h4, h5⟩ := hp
    exact normalizeQuery_of_settled k p false rfl (by omega) (Or.inl (by omega)) (Or.inl h4)
      (Or.inl h5)

/-- C26 at a concrete input: `ListSocialMedias` leaves the valid query
`page 3, perPage 25, sortBy "name", orderBy "asc"` as it is, and normalising the result
for `page -3, perPage 5000` again changes nothing. -/
theorem normalisation_idempotent_and_identity_on_valid_witness :
    ListSocialMedias_params ∈ listHandlers ∧
      FullyResolved sampleConsts.MaxPerPage
        { Page := 3, PerPage := 25, SortBy := "name", OrderBy := "asc" } ∧
      ListSocialMedias_params sampleConsts
          { Page := 3, PerPage := 25, SortBy := "name", OrderBy := "asc" } false =
        { Page := 3, PerPage := 25, SortBy := "name", OrderBy := "asc" } ∧
      ListSocialMedias_params sampleConsts
          (ListSocialMedias_params sampleConsts
            { Page := -3, PerPage := 5000, SortBy := "", OrderBy := "" } false) false =
        ListSocialMedias_params sampleConsts
          { Page := -3, PerPage := 5000, SortBy := "", OrderBy := "" } false :=
  ⟨by simp [listHandlers], by decide,
    (normalisation_idempotent_and_identity_on_valid sampleConsts ListSocialMedias_params
      (by simp [listHandlers])).2 _ (by decide),
    (normalisation_idempotent_and_identity_on_valid sampleConsts ListSocialMedias_params
      (by simp [listHandlers])).1 _ false⟩

/-- C27: when the engine fails the delete of the existing participant rows, an update of
invitation `4` through `DashboardInvitationHandler.UpdateInvitation` still ends in the
redirect, and the two participants the invitation had are both still there, although the
invitation the handler built carries none. -/
theorem dashboard_update_keeps_participants_when_delete_fails :
    (UpdateInvitation_invitation sampleInvitationRequest).Participants = [] ∧
      (DashboardInvitationHandler.UpdateInvitation (worldOf sampleInvitationStore (failAt 2)) 4
        sampleInvitationRequest).2 = 302 ∧
      ((DashboardInvitationHandler.UpdateInvitation (worldOf sampleInvitationStore (failAt 2)) 4
          sampleInvitationRequest).1.store.invitationParticipants.filter
          fun r => r.InvitationID = 4) =
        [{ InvitationID := 4, Title := "p1", PhoneNumber := "1", GuestCount := 1 },
          { InvitationID := 4, Title := "p2", PhoneNumber := "3", GuestCount := 3 }] ∧
      (Via.tx, Stmt.deleteInvitationParticipantsWhere 4) ∈
        (DashboardInvitationHandler.UpdateInvitation (worldOf sampleInvitationStore (failAt 2)) 4
          sampleInvitationRequest).1.log := by
  decide

/-- C28: for every request, whatever its `Date` and `Time` fields are, the invitation that
`DashboardInvitationHandler.UpdateInvitation` builds has the zero `Date` and `Time`; the
patch of `InvitationService.UpdateInvitation` for it maps `date` and `time` to the zero
time; and in every execution the first statement of the handler's call hands exactly this
patch to the repository. -/
theorem dashboard_update_patches_zero_date_and_time (w : World) (id : Nat)
    (req : requests.InvitationRequest) :
    (UpdateInvitation_invitation req).Date = DateTime.zero ∧
      (UpdateInvitation_invitation req).Time = DateTime.zero ∧
      (InvitationService.updateData (UpdateInvitation_invitation req)).lookup "date" =
        some (Value.time DateTime.zero) ∧
      (InvitationService.updateData (UpdateInvitation_invitation req)).lookup "time" =
        some (Value.time DateTime.zero) ∧
      ((DashboardInvitationHandler.UpdateInvitation w id req).1.log.drop w.log.length).head? =
        some (Via.repo,
          Stmt.updateInvitation id
            (InvitationService.updateData (UpdateInvitation_invitation req)) 0) ∧
      (∀ date time : String,
        UpdateInvitation_invitation { req with Date := date, Time := time } =
          UpdateInvitation_invitation req) := by
  obtain ⟨k, hk, hlog⟩ := UpdateInvitation_log w id (UpdateInvitation_invitation req)
  refine ⟨rfl, rfl, rfl, rfl, ?_, fun _ _ => rfl⟩
  rw [DashboardUpdateInvitation_fst, hlog, List.drop_left]
  obtain ⟨k', rfl⟩ : ∃ k', k = k' + 1 := ⟨k - 1, by omega⟩
  simp [InvitationService.updateStatements]

/-- C29: unless the card loaded for the id exists and its `UserID` equals the acting
user's id, `PanelCardHandler.UpdateCard` and `PanelCardHandler.DeleteCard` answer `404` and
leave the world as it was, no statement issued; when the card exists and is the acting
user's, they end with the world of the card service's write operation. The card handed to
the service on the update path keeps the loaded card's `UserID`, whatever `UserID` the
request carries, and so does the patch. -/
theorem panel_card_writes_only_for_owner (w : World) (id : Nat)
    (locals : String → Option LocalValue) (loaded : Option CardEntity)
    (validated : Option requests.CardRequest) :
    ((¬ ∃ card, loaded = some card ∧ card.UserID = localUint (locals "userID")) →
        PanelCardHandler.UpdateCard w id locals loaded validated = (w, PanelOutcome.notFound) ∧
          PanelCardHandler.DeleteCard w id locals loaded = (w, PanelOutcome.notFound)) ∧
      (∀ card req, loaded = some card → card.UserID = localUint (locals "userID") →
        validated = some req →
          (PanelCardHandler.UpdateCard w id locals loaded validated).1 =
              (CardService.UpdateCard w id (PanelCardHandler.UpdateCard_card id card req)).1 ∧
            (PanelCardHandler.UpdateCard w id locals loaded validated).2 ≠
              PanelOutcome.notFound) ∧
      (∀ card, loaded = some card → card.UserID = localUint (locals "userID") →
        (PanelCardHandler.DeleteCard w id locals loaded).1 = (CardService.DeleteCard w id).1 ∧
          (PanelCardHandler.DeleteCard w id locals loaded).2 ≠ PanelOutcome.notFound) ∧
      (∀ card req,
        (PanelCardHandler.UpdateCard_card id card req).UserID = card.UserID ∧
          (CardService.updateData (PanelCardHandler.UpdateCard_card id card req)).lookup
              "user_id" = some (Value.uint card.UserID)) := by
  refine ⟨fun h => ?_, fun card req hl hu hv => ?_, fun card hl hu => ?_,
    fun card req => ⟨rfl, rfl⟩⟩
  · unfold PanelCardHandler.UpdateCard PanelCardHandler.DeleteCard
    rcases loaded with _ | card
    · exact ⟨rfl, rfl⟩
    · have hne : card.UserID ≠ localUint (locals "userID") := fun heq => h ⟨card, rfl, heq⟩
      simp [hne]
  · subst hl hv
    unfold PanelCardHandler.UpdateCard
    simp only [hu, ne_eq, not_true_eq_false, if_false]
    rcases CardService.UpdateCard w id (PanelCardHandler.UpdateCard_card id card req)
      with ⟨w1, _ | e⟩ <;> simp
  · subst hl
    unfold PanelCardHandler.DeleteCard
    simp only [hu, ne_eq, not_true_eq_false, if_false]
    rcases CardService.DeleteCard w id with ⟨w1, _ | e⟩ <;> simp

/-- C30: in every execution, whatever the engine fails, `UpdateInvitation(id, …)` and
`DeleteInvitation(id)` leave the detail rows and the participant rows of every other
invitation as they were, in the same order; every child row that `UpdateInvitation`
inserts carries `InvitationID = id`. -/
theorem invitation_writes_keep_other_children (w : World) (id : Nat)
    (invitation : Invitation) :
    (((InvitationService.UpdateInvitation w id invitation).1.store.invitationDetails.filter
          fun r => r.InvitationID ≠ id) =
        (w.store.invitationDetails.filter fun r => r.InvitationID ≠ id) ∧
      ((InvitationService.UpdateInvitation w id
          invitation).1.store.invitationParticipants.filter fun r => r.InvitationID ≠ id) =
        (w.store.invitationParticipants.filter fun r => r.InvitationID ≠ id)) ∧
      (((InvitationService.DeleteInvitation w id).1.store.invitationDetails.filter
          fun r => r.InvitationID ≠ id) =
        (w.store.invitationDetails.filter fun r => r.InvitationID ≠ id) ∧
      ((InvitationService.DeleteInvitation w id).1.store.invitationParticipants.filter
          fun r => r.InvitationID ≠ id) =
        (w.store.invitationParticipants.filter fun r => r.InvitationID ≠ id)) ∧
      (∀ row,
        (Via.tx, Stmt.createInvitationDetail row) ∈
            (InvitationService.UpdateInvitation w id invitation).1.log.drop w.log.length →
          row.InvitationID = id) ∧
      (∀ row,
        (Via.tx, Stmt.createInvitationParticipant row) ∈
            (InvitationService.UpdateInvitation w id invitation).1.log.drop w.log.length →
          row.InvitationID = id) := by
  obtain ⟨k, hk, hlog⟩ := UpdateInvitation_log w id invitation
  refine ⟨UpdateInvitation_keepsOthers w id invitation, DeleteInvitation_keepsOthers w id,
    fun row hmem => ?_, fun row hmem => ?_⟩
  · rw [hlog, List.drop_left] at hmem
    have hmem2 := List.mem_of_mem_take hmem
    simp only [InvitationService.updateStatements, InvitationService.childStatements,
      List.mem_cons, List.mem_map, List.mem_append, Prod.mk.injEq, true_and, false_and,
      reduceCtorEq, false_or, exists_eq_right] at hmem2
    rcases hmem2 with ⟨d, _, hd⟩ | ⟨p, _, hp⟩
    · cases hd; rfl
    · cases hp
  · rw [hlog, List.drop_left] at hmem
    have hmem2 := List.mem_of_mem_take hmem
    simp only [InvitationService.updateStatements, InvitationService.childStatements,
      List.mem_cons, List.mem_map, List.mem_append, Prod.mk.injEq, true_and, false_and,
      reduceCtorEq, false_or, exists_eq_right] at hmem2
    rcases hmem2 with ⟨d, _, hd⟩ | ⟨p, _, hp⟩
    · cases hd
    · cases hp; rfl

end DL2006
